import Mathlib

/-!
Shallow embedding of `source/vir/src/ast_to_sst.rs` (the AST-to-SST lowering
pass of the Verus verifier) together with theorems about its behaviour.

The embedding follows the Rust source definition by definition.  Rust's
`&mut State` threading is modelled by an explicit state-passing monad `M`;
`panic!`/`assert!`/`.expect` aborts are modelled by a dedicated `Res.panic`
outcome, distinct from the recoverable `Result::Err` channel (`Res.err`).
Recursion over expressions is bounded by an explicit fuel parameter
(`Res.nofuel` when exhausted) so that every definition is executable and
kernel-reducible; all theorems hold for every fuel value.

Types that ast_to_sst.rs imports from sibling modules of the same crate
(`crate::ast`, `crate::sst`, `crate::def`, `air`) are reconstructed from
their use sites in the source file; fields and variants that the lowering
pass never touches are omitted, and payloads whose internal structure is
never inspected (spans, trigger sets) are kept abstract or simplified.
-/

namespace VirSst

/-- Source spans are opaque payloads that the pass only copies around;
we model them by a plain identifier. -/
abbrev Span := Nat

abbrev Ident := String

abbrev Path := String

/-- `crate::ast::Fun` (a resolved function name). -/
abbrev Func := String

/-- `crate::ast::Mode`. -/
inductive Mode where
  | spec
  | proof
  | exec
deriving DecidableEq, Repr

/-- `crate::ast::IntRange`. -/
inductive IntRange where
  | int
  | nat
  | u (bits : Nat)
  | i (bits : Nat)
  | usize
  | isize
deriving DecidableEq, Repr

/-- `crate::ast::Constant` (as used by this pass: booleans and decimal-string
naturals). -/
inductive Constant where
  | bool (b : Bool)
  | nat (digits : String)
deriving DecidableEq, Repr

/-- `crate::ast::VarAt` (only `Pre` is used in this file). -/
inductive VarAt where
  | pre
deriving DecidableEq, Repr

/-- `air::ast::Quant`. -/
inductive Quant where
  | forallQ
  | existsQ
deriving DecidableEq, Repr

/-- Atomicity tag for invariant blocks. -/
inductive InvAtomicity where
  | atomic
  | nonAtomic
deriving DecidableEq, Repr

/-- `crate::ast::TypX` (`Typ` is `Arc<TypX>`; the `Arc` is dropped).
Only the variants this pass matches on are distinguished. -/
inductive TypX where
  | bool
  | int (range : IntRange)
  | datatype (path : Path) (typs : List TypX)
  | typParam (x : Ident)
  | boxed (t : TypX)
  | typeId
deriving Repr

abbrev Typ := TypX

abbrev Typs := List Typ

/-- `air::ast::BinderX` / `Binder`. -/
structure Binder (α : Type) where
  name : Ident
  a : α
deriving Repr

/-- `Binder::new_a`. -/
def Binder.new_a (b : Binder α) (a : β) : Binder β := ⟨b.name, a⟩

abbrev Binders (α : Type) := List (Binder α)

/-- `crate::ast::UnaryOp` (the variants `is_small_exp` distinguishes,
plus a representative for all others). -/
inductive UnaryOp where
  | not
  | bitNot
  | clip (range : IntRange)
  | trigger
deriving DecidableEq, Repr

/-- `crate::ast::UnaryOpr` (the variants this pass constructs or
distinguishes, plus a representative for all others). -/
inductive UnaryOpr where
  | box (t : Typ)
  | unbox (t : Typ)
  | hasType (t : Typ)
  | other (tag : String)
deriving Repr

/-- `crate::ast::ArithOp`. -/
inductive ArithOp where
  | add
  | sub
  | mul
  | euclideanDiv
  | euclideanMod
deriving DecidableEq, Repr

/-- `crate::ast::BinaryOp` (the variants this pass constructs or matches;
`arith` carries the `InferMode` key into `ctx.global.inferred_modes`). -/
inductive BinaryOp where
  | and
  | or
  | implies
  | eq
  | ne
  | arith (op : ArithOp) (inferredMode : Nat)
deriving DecidableEq, Repr

/-- `crate::sst::UniqueIdent`: a name paired with an optional renaming
generation counter. -/
abbrev UniqueIdent := Ident × Option Nat

/-- `crate::ast::PatternX` (after ast_simplify only `Var` should remain). -/
inductive PatternX where
  | var (name : Ident) (mutable : Bool)
  | complexPat
deriving Repr

/-- `crate::ast::Pattern` (`SpannedTyped<PatternX>`). -/
structure Pattern where
  span : Span
  typ : Typ
  x : PatternX
deriving Repr

mutual
/-- `crate::ast::Expr` (`Arc<SpannedTyped<ExprX>>`). -/
inductive Expr where
  | mk (span : Span) (typ : Typ) (x : ExprX)

/-- `crate::ast::CallTarget`. -/
inductive CallTarget where
  | fnSpec (e : Expr)
  | static (fn : Func) (typs : List TypX)

/-- `crate::ast::ExprX` (every variant matched by `expr_to_stm_opt`). -/
inductive ExprX where
  | const (c : Constant)
  | var (x : Ident)
  | varLoc (x : Ident)
  | varAt (x : Ident) (at_ : VarAt)
  | constVar (fn : Func)
  | loc (e : Expr)
  | assign (init_not_mut : Bool) (lhs : Expr) (rhs : Expr)
  | call (target : CallTarget) (args : List Expr)
  | tuple (es : List Expr)
  | ctor (path : Path) (variant : Ident) (binders : List (Binder Expr)) (update : Option Expr)
  | unary (op : UnaryOp) (e : Expr)
  | unaryOpr (op : UnaryOpr) (e : Expr)
  | binary (op : BinaryOp) (e1 : Expr) (e2 : Expr)
  | quant (q : Quant) (binders : List (Binder TypX)) (body : Expr)
  | closure (params : List (Binder TypX)) (body : Expr)
  | choose (params : List (Binder TypX)) (cond : Expr) (body : Expr)
  | fuel (fn : Func) (amount : Nat)
  | header
  | admitE
  | forallStm (vars : List (Binder TypX)) (require : Expr) (ensure : Expr) (pf : Expr)
  | assertBV (e : Expr)
  | ite (cond : Expr) (thn : Expr) (els : Option Expr)
  | matchE (e : Expr)
  | whileE (cond : Expr) (body : Expr) (invs : List Expr)
  | openInvariant (inv : Expr) (binder : Binder TypX) (body : Expr) (atomicity : InvAtomicity)
  | ret (e : Option Expr)
  | block (stmts : List Stmt) (body : Option Expr)

/-- `crate::ast::Stmt` (`Arc<Spanned<StmtX>>`). -/
inductive Stmt where
  | mk (span : Span) (x : StmtX)

/-- `crate::ast::StmtX`. -/
inductive StmtX where
  | expr (e : Expr)
  | decl (pattern : Pattern) (mode : Mode) (init : Option Expr)
end

def Expr.span : Expr → Span
  | Expr.mk s _ _ => s

def Expr.typ : Expr → Typ
  | Expr.mk _ t _ => t

def Expr.x : Expr → ExprX
  | Expr.mk _ _ x => x

def Stmt.span : Stmt → Span
  | Stmt.mk s _ => s

def Stmt.x : Stmt → StmtX
  | Stmt.mk _ x => x

mutual
/-- `crate::sst::Exp` (`Arc<SpannedTyped<ExpX>>`). -/
inductive Exp where
  | mk (span : Span) (typ : Typ) (x : ExpX)

/-- `crate::sst::ExpX`. -/
inductive ExpX where
  | const (c : Constant)
  | var (x : UniqueIdent)
  | varLoc (x : UniqueIdent)
  | varAt (x : UniqueIdent) (at_ : VarAt)
  | loc (e : Exp)
  | old (x : Ident)
  | call (fn : Func) (typs : List TypX) (args : List Exp)
  | callLambda (typ : TypX) (fn : Exp) (args : List Exp)
  | ctor (path : Path) (variant : Ident) (binders : List (Binder Exp))
  | unary (op : UnaryOp) (e : Exp)
  | unaryOpr (op : UnaryOpr) (e : Exp)
  | binary (op : BinaryOp) (e1 : Exp) (e2 : Exp)
  | ifE (cond : Exp) (thn : Exp) (els : Exp)
  | bind (bnd : Bnd) (e : Exp)

/-- `crate::sst::Bnd` (`Arc<Spanned<BndX>>`). -/
inductive Bnd where
  | mk (span : Span) (x : BndX)

/-- `crate::sst::BndX` (trigger sets are lists of lists of expressions). -/
inductive BndX where
  | letB (binders : List (Binder Exp))
  | quant (q : Quant) (binders : List (Binder TypX)) (trigs : List (List Exp))
  | lambda (params : List (Binder TypX))
  | choose (params : List (Binder TypX)) (trigs : List (List Exp)) (cond : Exp)
end

def Exp.span : Exp → Span
  | Exp.mk s _ _ => s

def Exp.typ : Exp → Typ
  | Exp.mk _ t _ => t

def Exp.x : Exp → ExpX
  | Exp.mk _ _ x => x

/-- `SpannedTyped::new_x`: same span and type, new node. -/
def Exp.new_x (e : Exp) (x : ExpX) : Exp := Exp.mk e.span e.typ x

abbrev Trigs := List (List Exp)

/-- `crate::sst::Dest`. -/
structure Dest where
  dest : Exp
  is_init : Bool

/-- Structured diagnostics built by `air::errors::error` /
`error_with_label` / `secondary_label`. -/
structure AirError where
  msg : String
  span : Span
  label : Option String
  secondary : List (Span × String)
deriving Repr

/-- `air::errors::error`. -/
def error (msg : String) (span : Span) : AirError := ⟨msg, span, none, []⟩

/-- `air::errors::error_with_label`. -/
def error_with_label (msg : String) (span : Span) (label : String) : AirError :=
  ⟨msg, span, some label, []⟩

/-- `air::errors::Error::secondary_label`. -/
def AirError.secondary_label (e : AirError) (span : Span) (label : String) : AirError :=
  { e with secondary := e.secondary ++ [(span, label)] }

/-- `crate::ast::VirErr` is an `air` error. -/
abbrev VirErr := AirError

/-- `crate::sst::LocalDeclX` / `LocalDecl`. -/
structure LocalDecl where
  ident : UniqueIdent
  typ : Typ
  mutable : Bool

mutual
/-- `crate::sst::Stm` (`Arc<Spanned<StmX>>`). -/
inductive Stm where
  | mk (span : Span) (x : StmX)

/-- `crate::sst::StmX` (the variants this pass constructs). -/
inductive StmX where
  | call (fn : Func) (typs : List TypX) (args : List Exp) (dest : Option Dest)
  | assert (err : Option AirError) (e : Exp)
  | assertBV (e : Exp)
  | assume (e : Exp)
  | assign (lhs : Dest) (rhs : Exp)
  | fuel (fn : Func) (amount : Nat)
  | deadEnd (s : Stm)
  | ifS (cond : Exp) (thn : Stm) (els : Option Stm)
  | whileS (cond_stms : List Stm) (cond_exp : Exp) (body : Stm) (invs : List Exp)
      (typ_inv_vars : List (UniqueIdent × Typ)) (modified_vars : List UniqueIdent)
  | openInvariant (inv : Exp) (ident : UniqueIdent) (typ : Typ) (body : Stm)
      (atomicity : InvAtomicity)
  | block (stms : List Stm)
end

def Stm.span : Stm → Span
  | Stm.mk s _ => s

def Stm.x : Stm → StmX
  | Stm.mk _ x => x

/-- `crate::def::PREFIX_TEMP_VAR`-based temp-variable naming
(`crate::def::prefix_temp_var`); `def.rs` is not part of this file, so the
concrete prefix string is a model, chosen so that it cannot collide with a
surface-language identifier. -/
def prefix_temp_var (n : Nat) : Ident := "tmp%%" ++ toString n

/-- Character-list prefix test (`str::starts_with`). -/
def listPrefixOf : List Char → List Char → Bool
  | [], _ => true
  | _, [] => false
  | a :: as, b :: bs => a == b && listPrefixOf as bs

/-- `crate::def::is_temp_var`: recognizes names produced by
`prefix_temp_var`. -/
def is_temp_var (x : Ident) : Bool := listPrefixOf "tmp%%".data x.data

/-- `crate::def::prefix_tuple_type` (modelled name for the lowered
`n`-tuple datatype path). -/
def prefix_tuple_type (n : Nat) : Path := "tuple%" ++ toString n

/-- `crate::def::prefix_tuple_variant` (modelled name for the lowered
`n`-tuple constructor). -/
def prefix_tuple_variant (n : Nat) : Ident := "tuple%" ++ toString n ++ "%%ctor"

/-- `crate::def::suffix_typ_param_id` (modelled name decoration for
type-parameter identifiers). -/
def suffix_typ_param_id (x : Ident) : Ident := x ++ "&"

/-- Outcome of running a piece of the pass.  `ok`/`err` are Rust's
`Result::Ok`/`Result::Err(VirErr)`; `panic` is a process abort
(`panic!`, `assert!`, `.expect`); `nofuel` marks fuel exhaustion of the
embedding (never produced by any finite Rust execution). -/
inductive Res (α : Type) where
  | ok (a : α)
  | err (e : VirErr)
  | panic (msg : String)
  | nofuel

/-- `air::scope_map::ScopeMap<Ident, Option<u64>>`: a stack of scopes,
innermost scope first.  Each scope is an association list, newest
binding first. -/
abbrev ScopeMap := List (List (Ident × Option Nat))

/-- Association-list lookup (first, i.e. newest, match wins). -/
def lookupA [BEq α] : List (α × β) → α → Option β
  | [], _ => none
  | (k, v) :: rest, x => if k == x then some v else lookupA rest x

/-- `ScopeMap::get`: resolve the nearest visible binding. -/
def scopeGet : ScopeMap → Ident → Option (Option Nat)
  | [], _ => none
  | sc :: rest, x =>
    match lookupA sc x with
    | some v => some v
    | none => scopeGet rest x

/-- `ScopeMap::insert` into the current (innermost) scope.  (In `air`,
inserting a key already present in the same scope is an error that the
callers `.expect`; lookups always take the newest binding, so modelling
the insert as a plain prepend is observationally equivalent for the
executions this pass performs.) -/
def scopeInsert (m : ScopeMap) (x : Ident) (v : Option Nat) : ScopeMap :=
  match m with
  | [] => [[(x, v)]]
  | sc :: rest => ((x, v) :: sc) :: rest

/-- `ScopeMap::scope_and_index_of_key`: scope index (0 = outermost scope)
and index of the nearest binding of the key.  The pass only inspects the
scope index, so the within-scope index is reported as 0. -/
def scope_and_index_of_key : ScopeMap → Ident → Option (Nat × Nat)
  | [], _ => none
  | sc :: rest, x =>
    if (lookupA sc x).isSome then some (rest.length, 0)
    else scope_and_index_of_key rest x

/-- `ScopeMap::num_scopes`. -/
def numScopes (m : ScopeMap) : Nat := m.length

/-- The mutable translation context `State` of ast_to_sst.rs. -/
structure State where
  view_as_spec : Bool
  next_var : Nat
  local_decls : List LocalDecl
  rename_map : ScopeMap
  rename_counters : List (Ident × Nat)
  dont_rename : List UniqueIdent
  ret_post : Option (Option UniqueIdent × List Exp)

/-- `State::new`. -/
def State.new : State :=
  { view_as_spec := false
    next_var := 0
    local_decls := []
    rename_map := [[]]
    rename_counters := []
    dont_rename := []
    ret_post := none }

/-- `State::next_temp`. -/
def State.next_temp (s : State) (span : Span) (typ : Typ) : (Ident × Exp) × State :=
  let nv := s.next_var + 1
  let x := prefix_temp_var nv
  ((x, Exp.mk span typ (ExpX.var (x, some 0))), { s with next_var := nv })

/-- `State::push_scope`. -/
def State.push_scope (s : State) : State :=
  { s with rename_map := [] :: s.rename_map }

/-- `State::pop_scope`. -/
def State.pop_scope (s : State) : State :=
  { s with rename_map := s.rename_map.tail }

/-- `State::get_var_unique_id` (panics when the variable was never
registered). -/
def State.get_var_unique_id (s : State) (x : Ident) : Res UniqueIdent :=
  match scopeGet s.rename_map x with
  | none => Res.panic ("internal error: variable not in rename_map: " ++ x)
  | some id => Res.ok (x, id)

/-- `State::new_statement_var`: counter 0, generation `Some 0`. -/
def State.new_statement_var (s : State) (x : Ident) : State :=
  { s with
    rename_counters := (x, 0) :: s.rename_counters
    rename_map := scopeInsert s.rename_map x (some 0) }

/-- `State::declare_expression_var`: generation `None`. -/
def State.declare_expression_var (s : State) (x : Ident) : State :=
  { s with rename_map := scopeInsert s.rename_map x none }

/-- `State::alloc_unique_var`: next unused generation counter for `x`. -/
def State.alloc_unique_var (s : State) (x : Ident) : UniqueIdent × State :=
  let i := match lookupA s.rename_counters x with
    | none => 0
    | some i => i + 1
  ((x, some i), { s with rename_counters := (x, i) :: s.rename_counters })

/-- `State::insert_unique_var`. -/
def State.insert_unique_var (s : State) (x : UniqueIdent) : State :=
  { s with rename_map := scopeInsert s.rename_map x.1 x.2 }

/-- `State::declare_binders`. -/
def State.declare_binders (s : State) (binders : Binders α) : State :=
  binders.foldl (fun s b => s.declare_expression_var b.name) s

/-- `State::declare_new_var`. -/
def State.declare_new_var (s : State) (ident : Ident) (typ : Typ)
    (mutable : Bool) (may_need_rename : Bool) : UniqueIdent × State :=
  let (unique_ident, s) :=
    if may_need_rename then
      let (id, s) := s.alloc_unique_var ident
      (id, s.insert_unique_var id)
    else
      ((ident, some 0), s.new_statement_var ident)
  let decl : LocalDecl := ⟨unique_ident, typ, mutable⟩
  (unique_ident, { s with local_decls := s.local_decls ++ [decl] })

/-- The state-passing result monad modelling `(&mut State, Result<_, VirErr>)`
plus the abort channel. -/
@[reducible] def M (α : Type) : Type := State → Res (α × State)

def M.bind (m : M α) (f : α → M β) : M β := fun s =>
  match m s with
  | Res.ok (a, s') => f a s'
  | Res.err e => Res.err e
  | Res.panic msg => Res.panic msg
  | Res.nofuel => Res.nofuel

instance instMonadM : Monad M where
  pure := fun a s => Res.ok (a, s)
  bind := M.bind

/-- Read the current state. -/
def getS : M State := fun s => Res.ok (s, s)

/-- Replace the current state. -/
def setS (s : State) : M Unit := fun _ => Res.ok ((), s)

/-- Apply a pure state transformer. -/
def modifyS (f : State → State) : M Unit := fun s => Res.ok ((), f s)

/-- Lift a state-independent result into the monad. -/
def ofRes (r : Res α) : M α := fun s =>
  match r with
  | Res.ok a => Res.ok (a, s)
  | Res.err e => Res.err e
  | Res.panic msg => Res.panic msg
  | Res.nofuel => Res.nofuel

/-- Raise a recoverable diagnosed error. -/
def throwM (e : VirErr) : M α := fun _ => Res.err e

/-- Abort the process (`panic!`). -/
def panicM (msg : String) : M α := fun _ => Res.panic msg

/-- `crate::ast_util::err_str`. -/
def err_str (span : Span) (msg : String) : Res α := Res.err (error msg span)

/-- Function metadata as used here: `FunctionX::mode` and
`FunctionX::has_return()`. -/
structure FunctionX where
  mode : Mode
  hasReturn : Bool

/-- The parts of `crate::context::Ctx` this pass reads: the function map,
the inferred-mode table, and the external trigger-selection collaborator
(`crate::triggers::build_triggers`), kept as an opaque function field. -/
structure Ctx where
  func_map : List (Func × FunctionX)
  inferred_modes : List (Nat × Mode)
  build_triggers : Span → List Ident → Exp → Res Trigs

/-- `get_function`. -/
def get_function (ctx : Ctx) (expr : Expr) (name : Func) : Res FunctionX :=
  match lookupA ctx.func_map name with
  | none => err_str expr.span ("could not find function " ++ name)
  | some fx => Res.ok fx

/-- `function_can_be_exp`. -/
def function_can_be_exp (ctx : Ctx) (expr : Expr) (path : Func) : Res Bool :=
  match get_function ctx expr path with
  | Res.ok fx =>
    match fx.mode with
    | Mode.spec => Res.ok true
    | Mode.proof => Res.ok false
    | Mode.exec => Res.ok false
  | Res.err e => Res.err e
  | Res.panic msg => Res.panic msg
  | Res.nofuel => Res.nofuel

/-- `ctx.global.inferred_modes[inferred_mode]` (a `HashMap` index, which
panics when the key is missing). -/
def inferred_mode_get (ctx : Ctx) (im : Nat) : Res Mode :=
  match lookupA ctx.inferred_modes im with
  | some m => Res.ok m
  | none => Res.panic "inferred_modes: no entry found for key"

/-- `var_loc_exp`. -/
def var_loc_exp (span : Span) (typ : Typ) (lhs : UniqueIdent) : Exp :=
  Exp.mk span typ (ExpX.varLoc lhs)

/-- `init_var`: an initializing assignment `x := exp`. -/
def init_var (span : Span) (x : UniqueIdent) (exp : Exp) : Stm :=
  Stm.mk span (StmX.assign ⟨var_loc_exp exp.span exp.typ x, true⟩ exp)

/-- `assume_false`. -/
def assume_false (span : Span) : Stm :=
  Stm.mk span (StmX.assume (Exp.mk span TypX.bool (ExpX.const (Constant.bool false))))

/-- `can_control_flow_reach_after_loop`: `false` exactly when the loop
condition is syntactically the literal `true`; panics on a non-loop. -/
def can_control_flow_reach_after_loop (expr : Expr) : Res Bool :=
  match expr.x with
  | ExprX.whileE cond _ _ =>
    match cond.x with
    | ExprX.const (Constant.bool true) => Res.ok false
    | _ => Res.ok true
  | _ => Res.panic "expected while loop"

/-- Abbreviation used by theorems: is the loop condition syntactically the
literal `true`? -/
def cond_is_literal_true (cond : Expr) : Bool :=
  match cond.x with
  | ExprX.const (Constant.bool true) => true
  | _ => false

/-- The tri-state `ReturnValue` of translating one expression. -/
inductive ReturnValue where
  | some (e : Exp)
  | implicitUnit (span : Span)
  | never

/-- `lowered_unit_typ`. -/
def lowered_unit_typ : Typ := TypX.datatype (prefix_tuple_type 0) []

/-- `lowered_unit_value`. -/
def lowered_unit_value (span : Span) : Exp :=
  Exp.mk span lowered_unit_typ (ExpX.ctor (prefix_tuple_type 0) (prefix_tuple_variant 0) [])

/-- `ReturnValue::to_value`. -/
def ReturnValue.to_value : ReturnValue → Option Exp
  | ReturnValue.some e => Option.some e
  | ReturnValue.implicitUnit span => Option.some (lowered_unit_value span)
  | ReturnValue.never => Option.none

/-- `ReturnValue::expect_value` (panics on `Never`). -/
def ReturnValue.expect_value : ReturnValue → Res Exp
  | ReturnValue.some e => Res.ok e
  | ReturnValue.implicitUnit span => Res.ok (lowered_unit_value span)
  | ReturnValue.never => Res.panic "ReturnValue::Never unexpected here"

/-- `stms_to_one_stm`. -/
def stms_to_one_stm (span : Span) (stms : List Stm) : Stm :=
  match stms with
  | [stm] => stm
  | _ => Stm.mk span (StmX.block stms)

/-- `stms_to_one_stm_opt`. -/
def stms_to_one_stm_opt (span : Span) (stms : List Stm) : Option Stm :=
  match stms with
  | [] => Option.none
  | _ => Option.some (stms_to_one_stm span stms)

/-- `check_unit_or_never`: accept implicit units, `Never`, and
temp-variable references; reject every other value. -/
def check_unit_or_never (exp : ReturnValue) : Res Unit :=
  match exp with
  | ReturnValue.implicitUnit _ => Res.ok ()
  | ReturnValue.never => Res.ok ()
  | ReturnValue.some exp =>
    match exp.x with
    | ExpX.var (x, _) =>
      if is_temp_var x then Res.ok ()
      else err_str exp.span "expressions with no effect are not supported"
    | _ => err_str exp.span "expressions with no effect are not supported"

mutual
/-- `is_small_exp` / `is_small_exp_or_loc`, merged over a flag telling
whether a top-level `Loc` counts as small (the recursive positions always
allow it, exactly as in the source). -/
def is_small_exp_f (allowLoc : Bool) : Exp → Bool
  | Exp.mk _ _ x => is_small_expx_f allowLoc x

def is_small_expx_f (allowLoc : Bool) : ExpX → Bool
  | ExpX.const _ => true
  | ExpX.var _ => true
  | ExpX.varAt _ _ => true
  | ExpX.old _ => true
  | ExpX.loc _ => allowLoc
  | ExpX.unary UnaryOp.not e => is_small_exp_f true e
  | ExpX.unary (UnaryOp.clip _) e => is_small_exp_f true e
  | ExpX.unaryOpr (UnaryOpr.box _) e => is_small_exp_f true e
  | ExpX.unaryOpr (UnaryOpr.unbox _) e => is_small_exp_f true e
  | _ => false
end

/-- `is_small_exp`. -/
def is_small_exp (e : Exp) : Bool := is_small_exp_f false e

/-- `is_small_exp_or_loc`. -/
def is_small_exp_or_loc (e : Exp) : Bool := is_small_exp_f true e

mutual
/-- `crate::ast_util::types_equal` (structural type equality). -/
def types_equal : Typ → Typ → Bool
  | TypX.bool, TypX.bool => true
  | TypX.int r1, TypX.int r2 => r1 == r2
  | TypX.datatype p1 ts1, TypX.datatype p2 ts2 => p1 == p2 && typs_equal ts1 ts2
  | TypX.typParam x1, TypX.typParam x2 => x1 == x2
  | TypX.boxed t1, TypX.boxed t2 => types_equal t1 t2
  | TypX.typeId, TypX.typeId => true
  | _, _ => false

def typs_equal : List Typ → List Typ → Bool
  | [], [] => true
  | t1 :: ts1, t2 :: ts2 => types_equal t1 t2 && typs_equal ts1 ts2
  | _, _ => false
end

/-- An `Arg` is a translated argument expression paired with the argument's
declared type. -/
abbrev Arg := Exp × Typ

/-- The `ReturnedCall` outcome of `expr_get_call`. -/
inductive ReturnedCall where
  | call (fn : Func) (typs : Typs) (has_return : Bool) (args : List Arg)
  | never

/-- The argument-hoisting loop of `stm_call`: small arguments pass through,
every other argument is moved into a fresh initialized temp.  Returns the
final argument list, the init statements, and the updated state. -/
def stm_call_loop (s : State) : List Arg → List Exp → List Stm → List Exp × List Stm × State
  | [], small_args, stms => (small_args, stms, s)
  | arg :: rest, small_args, stms =>
    if is_small_exp_or_loc arg.1 then
      stm_call_loop s rest (small_args ++ [arg.1]) stms
    else
      let ((temp, temp_var), s) := s.next_temp arg.1.span arg.2
      let (temp_id, s) := s.declare_new_var temp arg.2 false false
      stm_call_loop s rest (small_args ++ [temp_var]) (stms ++ [init_var arg.1.span temp_id arg.1])

/-- `stm_call`: build the statement-form call, hoisting non-small
arguments into temps first. -/
def stm_call (s : State) (span : Span) (name : Func) (typs : Typs) (args : List Arg)
    (dest : Option Dest) : Stm × State :=
  let (small_args, stms, s) := stm_call_loop s args [] []
  let call := StmX.call name typs small_args dest
  let stms := stms ++ [Stm.mk span call]
  (stms_to_one_stm span stms, s)

/-- Is the lowered expression a `VarLoc` (i.e. a simple variable
location)? -/
def isVarLoc (e : Exp) : Bool :=
  match e.x with
  | ExpX.varLoc _ => true
  | _ => false

/-- `if_to_stm`: merge the translations of a conditional's parts. -/
def if_to_stm (expr : Expr) (stms0 : List Stm) (e0 : ReturnValue)
    (stms1 : List Stm) (e1 : ReturnValue) (stms2 : List Stm) (e2 : ReturnValue) :
    M (List Stm × ReturnValue) :=
  match e0.to_value with
  | Option.none => pure (stms0, ReturnValue.never)
  | Option.some e0v =>
    match e1, e2 with
    | ReturnValue.implicitUnit _, _ | _, ReturnValue.implicitUnit _ =>
      -- sanity check from the source: the conditional must be unit-typed here
      if types_equal expr.typ lowered_unit_typ then
        let stm1 := stms_to_one_stm expr.span stms1
        let stm2 := stms_to_one_stm_opt expr.span stms2
        let if_stmt := StmX.ifS e0v stm1 stm2
        pure (stms0 ++ [Stm.mk expr.span if_stmt], ReturnValue.implicitUnit expr.span)
      else panicM "assertion failed: types_equal(expr.typ, lowered_unit_typ)"
    | ReturnValue.never, other | other, ReturnValue.never =>
      let stm1 := stms_to_one_stm expr.span stms1
      let stm2 := stms_to_one_stm_opt expr.span stms2
      let if_stmt := StmX.ifS e0v stm1 stm2
      pure (stms0 ++ [Stm.mk expr.span if_stmt], other)
    | ReturnValue.some e1v, ReturnValue.some e2v =>
      if stms1.length == 0 && stms2.length == 0 then
        let exp := Exp.mk expr.span expr.typ (ExpX.ifE e0v e1v e2v)
        pure (stms0, ReturnValue.some exp)
      else do
        let s ← getS
        let ((temp, temp_var), sA) := s.next_temp expr.span expr.typ
        let (temp_id, sB) := sA.declare_new_var temp expr.typ false false
        setS sB
        let stms1A := stms1 ++ [init_var expr.span temp_id e1v]
        let stms2A := stms2 ++ [init_var expr.span temp_id e2v]
        let stm1 := stms_to_one_stm expr.span stms1A
        let stm2 := stms_to_one_stm_opt expr.span stms2A
        let if_stmt := StmX.ifS e0v stm1 stm2
        pure (stms0 ++ [Stm.mk expr.span if_stmt], ReturnValue.some temp_var)

/-- The short-circuiting table of the `ExprX::Binary` case:
`(proceed_on, other)`. -/
def short_circuit_of (op : BinaryOp) : Option (Bool × Bool) :=
  match op with
  | BinaryOp.and => Option.some (true, false)
  | BinaryOp.implies => Option.some (true, true)
  | BinaryOp.or => Option.some (false, true)
  | _ => Option.none

/-- `expr_to_stm_or_error`, parameterized by the translator `tr` for
subexpressions. -/
def expr_to_stm_or_error_with (tr : Expr → M (List Stm × ReturnValue)) (expr : Expr) :
    M (List Stm × Exp) := do
  let (stms, exp_opt) ← tr expr
  match exp_opt.to_value with
  | Option.some e => pure (stms, e)
  | Option.none => ofRes (err_str expr.span "expression must produce a value")

/-- `expr_to_pure_exp`, parameterized by the translator `tr`. -/
def expr_to_pure_exp_with (tr : Expr → M (List Stm × ReturnValue)) (expr : Expr) : M Exp := do
  let (stms, exp) ← expr_to_stm_or_error_with tr expr
  if stms.length == 0 then pure exp
  else ofRes (err_str expr.span "expected pure mathematical expression")

/-- `vec_map_result(.., expr_to_pure_exp)`: translate a list of expressions
to pure expressions, in order. -/
def pure_exps_loop (tr : Expr → M (List Stm × ReturnValue)) : List Expr → M (List Exp)
  | [] => pure []
  | e :: rest => do
    let e' ← expr_to_pure_exp_with tr e
    let rest' ← pure_exps_loop tr rest
    pure (e' :: rest')

/-- The argument loop of `expr_get_call`: translate arguments left to
right, accumulating statements; stop at the first argument whose
translation yields `Never` (result `none`). -/
def call_args_loop (tr : Expr → M (List Stm × ReturnValue)) :
    List Expr → List Stm → List Arg → M (List Stm × Option (List Arg))
  | [], stms, exps => pure (stms, Option.some exps)
  | arg :: rest, stms, exps => do
    let (stms0, e0) ← tr arg
    let stmsA := stms ++ stms0
    match e0.to_value with
    | Option.none => pure (stmsA, Option.none)
    | Option.some e0v => call_args_loop tr rest stmsA (exps ++ [(e0v, arg.typ)])

/-- `expr_get_call`. -/
def expr_get_call_with (ctx : Ctx) (tr : Expr → M (List Stm × ReturnValue)) (expr : Expr) :
    M (Option (List Stm × ReturnedCall)) :=
  match expr.x with
  | ExprX.call (CallTarget.fnSpec _) _ => panicM "internal error: CallTarget::FnSpec"
  | ExprX.call (CallTarget.static x typs) args => do
    let (stms, res) ← call_args_loop tr args [] []
    match res with
    | Option.none => pure (Option.some (stms, ReturnedCall.never))
    | Option.some exps => do
      let fx ← ofRes (get_function ctx expr x)
      pure (Option.some (stms, ReturnedCall.call x typs fx.hasReturn exps))
  | _ => pure Option.none

/-- `expr_must_be_call_stm`. -/
def expr_must_be_call_stm_with (ctx : Ctx) (tr : Expr → M (List Stm × ReturnValue))
    (expr : Expr) : M (Option (List Stm × ReturnedCall)) :=
  match expr.x with
  | ExprX.call (CallTarget.static x _) _ => do
    let can ← ofRes (function_can_be_exp ctx expr x)
    if !can then expr_get_call_with ctx tr expr
    else pure Option.none
  | _ => pure Option.none

/-- The field loop of the `ExprX::Ctor` case: translate fields left to
right; stop at the first `Never` (result `none`). -/
def ctor_fields_loop (tr : Expr → M (List Stm × ReturnValue)) :
    List (Binder Expr) → List Stm → List (Binder Exp) → M (List Stm × Option (List (Binder Exp)))
  | [], stms, args => pure (stms, Option.some args)
  | binder :: rest, stms, args => do
    let (stms1, e1) ← tr binder.a
    let stmsA := stms ++ stms1
    match e1.to_value with
    | Option.none => pure (stmsA, Option.none)
    | Option.some e1v => ctor_fields_loop tr rest stmsA (args ++ [⟨binder.name, e1v⟩])

/-- The bound-variable loop of the `ExprX::Forall` case: declare each
variable (statement-level, renamed) and assume its type-membership fact. -/
def forall_vars_loop (exprSpan : Span) (requireSpan : Span) :
    List (Binder TypX) → M (List Stm)
  | [] => pure []
  | var :: rest => do
    let s ← getS
    let (x, s) := s.declare_new_var var.name var.a false true
    setS s
    let xvar := Exp.mk exprSpan TypX.bool (ExpX.var x)
    let has_typ := Exp.mk exprSpan TypX.bool (ExpX.unaryOpr (UnaryOpr.hasType var.a) xvar)
    let assumeStm := Stm.mk requireSpan (StmX.assume has_typ)
    let rest' ← forall_vars_loop exprSpan requireSpan rest
    pure (assumeStm :: rest')

/-- The parameter loop of the `ExprX::Closure` case: box every
concretely-typed parameter, collecting the unboxing let-binders. -/
def closure_params_split (span : Span) :
    List (Binder TypX) → List (Binder Exp) × List (Binder TypX)
  | [] => ([], [])
  | p :: rest =>
    let (lets, boxed) := closure_params_split span rest
    match p.a with
    | TypX.typParam _ => (lets, p :: boxed)
    | TypX.boxed _ => (lets, p :: boxed)
    | t =>
      let boxed_typ := TypX.boxed t
      let varE := Exp.mk span boxed_typ (ExpX.var (p.name, Option.none))
      let unbox := Exp.mk span t (ExpX.unaryOpr (UnaryOpr.unbox t) varE)
      (⟨p.name, unbox⟩ :: lets, ⟨p.name, boxed_typ⟩ :: boxed)

/-- Accumulator of the statement loop in the `ExprX::Block` case. -/
structure BlockAcc where
  stms : List Stm
  local_decls : List LocalDecl
  binds : List Bnd
  is_pure_exp : Bool
  never_return : Bool

/-- The statement loop of the `ExprX::Block` case: process statements in
order; a statement whose translation yields `Never` ends the loop (`break`)
and the remaining statements are not processed. -/
def block_stmts_loop
    (st : Stmt → M (List Stm × ReturnValue × Option (LocalDecl × Option Bnd))) :
    List Stmt → BlockAcc → M BlockAcc
  | [], acc => pure acc
  | stmt :: rest, acc => do
    let (stms0, e0, decl_bnd_opt) ← st stmt
    let acc1 ← match decl_bnd_opt with
      | Option.some (decl, bnd) => do
        modifyS State.push_scope
        modifyS (fun s => s.insert_unique_var decl.ident)
        match bnd with
        | Option.none =>
          pure { acc with local_decls := acc.local_decls ++ [decl], is_pure_exp := false }
        | Option.some bnd =>
          pure { acc with local_decls := acc.local_decls ++ [decl], binds := acc.binds ++ [bnd] }
      | Option.none => pure { acc with is_pure_exp := false }
    let _ ← ofRes (check_unit_or_never e0)
    let acc2 := { acc1 with stms := acc1.stms ++ stms0 }
    match e0 with
    | ReturnValue.never => pure { acc2 with is_pure_exp := false, never_return := true }
    | _ => block_stmts_loop st rest acc2

/-- `stmt_to_stm`, parameterized by the translator `tr`. -/
def stmt_to_stm_with (ctx : Ctx) (tr : Expr → M (List Stm × ReturnValue)) (stmt : Stmt) :
    M (List Stm × ReturnValue × Option (LocalDecl × Option Bnd)) :=
  match stmt.x with
  | StmtX.expr e => do
    let (stms, exp) ← tr e
    pure (stms, exp, Option.none)
  | StmtX.decl pattern _ init => do
    let (name, mutable) ← match pattern.x with
      | PatternX.var name mutable => pure (name, mutable)
      | _ => panicM "internal error: Decl should have been simplified by ast_simplify"
    let s ← getS
    let (ident, sA) := s.alloc_unique_var name
    setS sA
    let typ := pattern.typ
    let decl : LocalDecl := ⟨ident, typ, mutable⟩
    let finish : List Stm → Option Exp → M (List Stm × ReturnValue × Option (LocalDecl × Option Bnd)) :=
      fun stms expOpt => do
        let bnd := match expOpt, stms with
          | Option.some exp, [] => Option.some (Bnd.mk stmt.span (BndX.letB [⟨name, exp⟩]))
          | _, _ => Option.none
        let stmsA := match expOpt with
          | Option.some exp => stms ++ [init_var stmt.span decl.ident exp]
          | Option.none => stms
        pure (stmsA, ReturnValue.implicitUnit stmt.span, Option.some (decl, bnd))
    match init with
    | Option.some initE => do
      let r ← expr_must_be_call_stm_with ctx tr initE
      match r with
      | Option.some (stms, ReturnedCall.never) => pure (stms, ReturnValue.never, Option.none)
      | Option.some (stms, ReturnedCall.call fn typs _ args) => do
        -- special case: convert to a Call; it can't be pure, so no Bnd
        let dest : Dest := ⟨var_loc_exp pattern.span typ decl.ident, true⟩
        let sB ← getS
        let (callStm, sC) := stm_call sB initE.span fn typs args (Option.some dest)
        setS sC
        pure (stms ++ [callStm], ReturnValue.implicitUnit stmt.span, Option.some (decl, Option.none))
      | Option.none => do
        let (stms, exp0) ← tr initE
        match exp0.to_value with
        | Option.none => pure (stms, ReturnValue.never, Option.none)
        | Option.some exp => finish stms (Option.some exp)
    | Option.none => finish [] Option.none

/-- One unfolding of `expr_to_stm_opt`: the whole body of the Rust
function, with `tr` standing for the recursive calls. -/
def expr_to_stm_opt_body (ctx : Ctx) (tr : Expr → M (List Stm × ReturnValue)) (expr : Expr) :
    M (List Stm × ReturnValue) :=
  match expr.x with
  | ExprX.const c =>
    pure ([], ReturnValue.some (Exp.mk expr.span expr.typ (ExpX.const c)))
  | ExprX.var x => do
    let s ← getS
    let unique_id ← ofRes (s.get_var_unique_id x)
    pure ([], ReturnValue.some (Exp.mk expr.span expr.typ (ExpX.var unique_id)))
  | ExprX.varLoc x => do
    let s ← getS
    let unique_id ← ofRes (s.get_var_unique_id x)
    pure ([], ReturnValue.some (Exp.mk expr.span expr.typ (ExpX.varLoc unique_id)))
  | ExprX.varAt x VarAt.pre => do
    let s ← getS
    match scope_and_index_of_key s.rename_map x with
    | Option.some (scope, _) =>
      if scope != 0 then ofRes (err_str expr.span "the parameter is shadowed here")
      else do
        let uid ← ofRes (s.get_var_unique_id x)
        pure ([], ReturnValue.some (Exp.mk expr.span expr.typ (ExpX.varAt uid VarAt.pre)))
    | Option.none => do
      let uid ← ofRes (s.get_var_unique_id x)
      pure ([], ReturnValue.some (Exp.mk expr.span expr.typ (ExpX.varAt uid VarAt.pre)))
  | ExprX.constVar _ => panicM "ConstVar should already be removed"
  | ExprX.loc expr1 => do
    let (stms, e0) ← tr expr1
    match e0.to_value with
    | Option.none => pure (stms, ReturnValue.never)
    | Option.some e0v =>
      pure (stms, ReturnValue.some (Exp.mk expr.span expr.typ (ExpX.loc e0v)))
  | ExprX.assign init_not_mut lhs_expr expr2 => do
    let (stms, lhs_rv) ← tr lhs_expr
    let lhs_exp ← ofRes lhs_rv.expect_value
    let r ← expr_must_be_call_stm_with ctx tr expr2
    match r with
    | Option.some (stms2, ReturnedCall.never) =>
      pure (stms ++ stms2, ReturnValue.never)
    | Option.some (stms2, ReturnedCall.call fn typs _ args) => do
      let stmsA := stms ++ stms2
      if isVarLoc lhs_exp then do
        let dest : Dest := ⟨lhs_exp, init_not_mut⟩
        let s ← getS
        let (callStm, sA) := stm_call s expr.span fn typs args (Option.some dest)
        setS sA
        pure (stmsA ++ [callStm], ReturnValue.implicitUnit expr.span)
      else
        if init_not_mut then panicM "init_not_mut unexpected for complex call dest"
        else do
          let s ← getS
          let ((temp, temp_var), sA) := s.next_temp lhs_exp.span expr2.typ
          let (temp_ident, sB) := sA.declare_new_var temp expr2.typ false false
          setS sB
          let assign := Stm.mk lhs_exp.span (StmX.assign ⟨lhs_exp, false⟩ temp_var)
          let dest : Dest := ⟨var_loc_exp lhs_exp.span expr2.typ temp_ident, true⟩
          let sC ← getS
          let (callStm, sD) := stm_call sC expr.span fn typs args (Option.some dest)
          setS sD
          pure (stmsA ++ [callStm, assign], ReturnValue.implicitUnit expr.span)
    | Option.none => do
      let (stms2, e2rv) ← tr expr2
      match e2rv.to_value with
      | Option.none =>
        -- as in the source macro: only the rhs statements are kept here
        pure (stms2, ReturnValue.never)
      | Option.some e2 => do
        let stmsA := stms ++ stms2
        let (rhs, stmsB) ←
          if isVarLoc lhs_exp || is_small_exp e2 then pure (e2, stmsA)
          else do
            let s ← getS
            let ((temp, temp_var), sA) := s.next_temp e2.span e2.typ
            let (temp_ident, sB) := sA.declare_new_var temp e2.typ false false
            setS sB
            pure (temp_var, stmsA ++ [init_var expr.span temp_ident e2])
        let assign := StmX.assign ⟨lhs_exp, init_not_mut⟩ rhs
        pure (stmsB ++ [Stm.mk expr.span assign], ReturnValue.implicitUnit expr.span)
  | ExprX.call (CallTarget.fnSpec e0) args => do
    let e0 ← expr_to_pure_exp_with tr e0
    let args ← pure_exps_loop tr args
    pure ([], ReturnValue.some (Exp.mk expr.span expr.typ (ExpX.callLambda expr.typ e0 args)))
  | ExprX.call (CallTarget.static _ _) _ => do
    let r ← expr_get_call_with ctx tr expr
    match r with
    | Option.none => panicM "Call"
    | Option.some (stms, ReturnedCall.never) => pure (stms, ReturnValue.never)
    | Option.some (stms, ReturnedCall.call x typs ret args) => do
      let can ← ofRes (function_can_be_exp ctx expr x)
      if can then
        pure (stms, ReturnValue.some
          (Exp.mk expr.span expr.typ (ExpX.call x typs (args.map (fun a => a.1)))))
      else
        if ret then do
          let s ← getS
          let ((temp, temp_var), sA) := s.next_temp expr.span expr.typ
          let (temp_ident, sB) := sA.declare_new_var temp expr.typ false false
          let dest : Dest := ⟨var_loc_exp expr.span expr.typ temp_ident, true⟩
          let (callStm, sC) := stm_call sB expr.span x typs args (Option.some dest)
          setS sC
          pure (stms ++ [callStm], ReturnValue.some temp_var)
        else do
          let s ← getS
          let (callStm, sA) := stm_call s expr.span x typs args Option.none
          setS sA
          pure (stms ++ [callStm], ReturnValue.implicitUnit expr.span)
  | ExprX.tuple _ => panicM "internal error: Tuple should have been simplified by ast_simplify"
  | ExprX.ctor p i binders update =>
    match update with
    | Option.some _ => panicM "assertion failed: update.is_none()"
    | Option.none => do
      let (stms, res) ← ctor_fields_loop tr binders [] []
      match res with
      | Option.none => pure (stms, ReturnValue.never)
      | Option.some args =>
        pure (stms, ReturnValue.some (Exp.mk expr.span expr.typ (ExpX.ctor p i args)))
  | ExprX.unary op e => do
    let (stms, exp) ← tr e
    match exp.to_value with
    | Option.none => pure (stms, ReturnValue.never)
    | Option.some expv =>
      pure (stms, ReturnValue.some (Exp.mk expr.span expr.typ (ExpX.unary op expv)))
  | ExprX.unaryOpr op e => do
    let (stms, exp) ← tr e
    match exp.to_value with
    | Option.none => pure (stms, ReturnValue.never)
    | Option.some expv =>
      pure (stms, ReturnValue.some (Exp.mk expr.span expr.typ (ExpX.unaryOpr op expv)))
  | ExprX.binary op e1 e2 => do
    let (stms1, e1v) ← tr e1
    let (stms2, e2v) ← tr e2
    match short_circuit_of op, stms2 with
    | Option.some (proceed_on, other), _ :: _ => do
      let b := ReturnValue.some (Exp.mk expr.span TypX.bool (ExpX.const (Constant.bool other)))
      if proceed_on then if_to_stm expr stms1 e1v stms2 e2v [] b
      else if_to_stm expr stms1 e1v [] b stms2 e2v
    | _, _ =>
      match e1v.to_value with
      | Option.none => pure (stms1, ReturnValue.never)
      | Option.some e1e => do
        let stms12 := stms1 ++ stms2
        match e2v.to_value with
        | Option.none => pure (stms12, ReturnValue.never)
        | Option.some e2e => do
          let bin := Exp.mk expr.span expr.typ (ExpX.binary op e1e e2e)
          match op with
          | BinaryOp.arith arith im => do
            let mode ← ofRes (inferred_mode_get ctx im)
            let s ← getS
            match s.view_as_spec, mode, expr.typ with
            | true, _, _ => pure (stms12, ReturnValue.some bin)
            | _, Mode.spec, _ => pure (stms12, ReturnValue.some bin)
            | _, _, TypX.int (IntRange.u _) | _, _, TypX.int (IntRange.i _) => do
              let (assert_exp, msg) :=
                match arith with
                | ArithOp.add | ArithOp.sub | ArithOp.mul =>
                  (Exp.mk expr.span TypX.bool
                    (ExpX.unaryOpr (UnaryOpr.hasType expr.typ) bin),
                   "possible arithmetic underflow/overflow")
                | ArithOp.euclideanDiv | ArithOp.euclideanMod =>
                  (Exp.mk expr.span TypX.bool
                    (ExpX.binary BinaryOp.ne e2e (e2e.new_x (ExpX.const (Constant.nat "0")))),
                   "possible division by zero")
              let assert := Stm.mk expr.span (StmX.assert (Option.some (error msg expr.span)) assert_exp)
              pure (stms12 ++ [assert], ReturnValue.some bin)
            | _, _, _ => pure (stms12, ReturnValue.some bin)
          | _ => pure (stms12, ReturnValue.some bin)
  | ExprX.quant q binders body => do
    modifyS State.push_scope
    modifyS (fun s => s.declare_binders binders)
    let exp ← expr_to_pure_exp_with tr body
    modifyS State.pop_scope
    let vars := binders.map (fun b =>
      match b.a with
      | TypX.typeId => suffix_typ_param_id b.name
      | _ => b.name)
    let trigs ← ofRes (ctx.build_triggers expr.span vars exp)
    let bnd := Bnd.mk body.span (BndX.quant q binders trigs)
    pure ([], ReturnValue.some (Exp.mk expr.span expr.typ (ExpX.bind bnd exp)))
  | ExprX.closure params body => do
    modifyS State.push_scope
    modifyS (fun s => s.declare_binders params)
    let exp0 ← expr_to_pure_exp_with tr body
    modifyS State.pop_scope
    let exp1 :=
      match body.typ with
      | TypX.typParam _ => exp0
      | TypX.boxed _ => exp0
      | t => Exp.mk body.span (TypX.boxed t) (ExpX.unaryOpr (UnaryOpr.box t) exp0)
    let (let_box_binds, boxed_params) := closure_params_split expr.span params
    let exp2 :=
      if let_box_binds.length != 0 then
        Exp.mk body.span exp1.typ (ExpX.bind (Bnd.mk body.span (BndX.letB let_box_binds)) exp1)
      else exp1
    let bnd := Bnd.mk body.span (BndX.lambda boxed_params)
    pure ([], ReturnValue.some (Exp.mk expr.span expr.typ (ExpX.bind bnd exp2)))
  | ExprX.choose params cond body => do
    modifyS State.push_scope
    modifyS (fun s => s.declare_binders params)
    let cond_exp ← expr_to_pure_exp_with tr cond
    let body_exp ← expr_to_pure_exp_with tr body
    modifyS State.pop_scope
    let vars := params.map (fun p => p.name)
    let trigs ← ofRes (ctx.build_triggers expr.span vars cond_exp)
    let bnd := Bnd.mk body.span (BndX.choose params trigs cond_exp)
    pure ([], ReturnValue.some (Exp.mk expr.span expr.typ (ExpX.bind bnd body_exp)))
  | ExprX.fuel x amount =>
    pure ([Stm.mk expr.span (StmX.fuel x amount)], ReturnValue.implicitUnit expr.span)
  | ExprX.header => ofRes (err_str expr.span "header expression not allowed here")
  | ExprX.admitE =>
    pure ([assume_false expr.span], ReturnValue.implicitUnit expr.span)
  | ExprX.forallStm vars require ensure pf => do
    modifyS State.push_scope
    let body0 ← forall_vars_loop expr.span require.span vars
    let (proof_stms, e) ← tr pf
    match e with
    | ReturnValue.some _ =>
      ofRes (err_str expr.span "forall/assert-by cannot end with an expression")
    | _ => do
      let require_exp ← expr_to_pure_exp_with tr require
      let body1 := body0 ++ [Stm.mk require.span (StmX.assume require_exp)] ++ proof_stms
      let ensure_exp ← expr_to_pure_exp_with tr ensure
      let body2 := body1 ++ [Stm.mk ensure.span (StmX.assert Option.none ensure_exp)]
      let block := Stm.mk expr.span (StmX.block body2)
      let deadend := Stm.mk expr.span (StmX.deadEnd block)
      modifyS State.pop_scope
      let imply := Expr.mk ensure.span TypX.bool (ExprX.binary BinaryOp.implies require ensure)
      let forallE := Expr.mk ensure.span TypX.bool (ExprX.quant Quant.forallQ vars imply)
      let forall_exp ← expr_to_pure_exp_with tr forallE
      let assumeStm := Stm.mk ensure.span (StmX.assume forall_exp)
      pure ([deadend, assumeStm], ReturnValue.implicitUnit expr.span)
  | ExprX.assertBV e => do
    let exprP ← expr_to_pure_exp_with tr e
    let ret := ReturnValue.implicitUnit exprP.span
    let assert := Stm.mk e.span (StmX.assertBV exprP)
    pure ([assert], ret)
  | ExprX.ite expr0 expr1 Option.none => do
    let (stms0, e0) ← tr expr0
    let (stms1, e1) ← tr expr1
    let stms2 := []
    let e2 := ReturnValue.implicitUnit expr.span
    if_to_stm expr stms0 e0 stms1 e1 stms2 e2
  | ExprX.ite expr0 expr1 (Option.some expr2) => do
    let (stms0, e0) ← tr expr0
    let (stms1, e1) ← tr expr1
    let (stms2, e2) ← tr expr2
    if_to_stm expr stms0 e0 stms1 e1 stms2 e2
  | ExprX.matchE _ => panicM "internal error: Match should have been simplified by ast_simplify"
  | ExprX.whileE cond body invs => do
    let (stms0, e0rv) ← tr cond
    match e0rv with
    | ReturnValue.never => pure (stms0, ReturnValue.never)
    | ReturnValue.implicitUnit _ =>
      panicM "while loop condition doesn't return a bool expression"
    | ReturnValue.some e0 => do
      let (stms1, e1) ← tr body
      let _ ← ofRes (check_unit_or_never e1)
      let invs' ← pure_exps_loop tr invs
      let while_stm := Stm.mk expr.span
        (StmX.whileS stms0 e0 (stms_to_one_stm body.span stms1) invs' [] [])
      let reach ← ofRes (can_control_flow_reach_after_loop expr)
      if reach then pure ([while_stm], ReturnValue.implicitUnit expr.span)
      else pure ([while_stm, assume_false expr.span], ReturnValue.never)
  | ExprX.openInvariant inv binder body atomicity => do
    let (stms0, big_rv) ← tr inv
    match big_rv.to_value with
    | Option.none => pure (stms0, ReturnValue.never)
    | Option.some big_inv_exp => do
      let s ← getS
      let ((temp, temp_var), sA) := s.next_temp big_inv_exp.span inv.typ
      let (temp_id, sB) := sA.declare_new_var temp inv.typ false false
      setS sB
      let stmsA := stms0 ++ [init_var big_inv_exp.span temp_id big_inv_exp]
      modifyS State.push_scope
      let sC ← getS
      let (ident, sD) := sC.declare_new_var binder.name binder.a true true
      setS sD
      let (body_stms, body_e) ← tr body
      modifyS State.pop_scope
      let _ ← ofRes (check_unit_or_never body_e)
      let body_stm := stms_to_one_stm expr.span body_stms
      let stmsB := stmsA ++
        [Stm.mk expr.span (StmX.openInvariant temp_var ident binder.a body_stm atomicity)]
      match body_e.to_value with
      | Option.none => pure (stmsB, ReturnValue.never)
      | Option.some _ => pure (stmsB, ReturnValue.implicitUnit expr.span)
  | ExprX.ret e1 => do
    let s ← getS
    match s.ret_post with
    | Option.none => ofRes (err_str expr.span "return expression not allowed here")
    | Option.some (ret_dest, enss) => do
      let finish : List Stm → M (List Stm × ReturnValue) := fun stms => do
        let asserts := enss.map (fun ens =>
          Stm.mk expr.span (StmX.assert
            (Option.some ((error_with_label "postcondition not satisfied" expr.span
              "at this exit").secondary_label ens.span "failed this postcondition"))
            ens))
        pure (stms ++ asserts ++ [assume_false expr.span], ReturnValue.never)
      match ret_dest, e1 with
      | Option.none, Option.none => finish []
      | Option.none, Option.some e => ofRes (err_str e.span "return value not allowed here")
      | Option.some _, Option.none => panicM "internal error: return value expected"
      | Option.some dest, Option.some e1 => do
        let (ret_stms, exprv) ← tr e1
        match exprv.to_value with
        | Option.none => pure (ret_stms, ReturnValue.never)
        | Option.some exp => finish (ret_stms ++ [init_var expr.span dest exp])
  | ExprX.block stmts body_opt => do
    let acc ← block_stmts_loop (stmt_to_stm_with ctx tr) stmts ⟨[], [], [], true, false⟩
    let (stms, is_pure_exp, exp) ←
      if acc.never_return then
        pure (acc.stms, acc.is_pure_exp, ReturnValue.never)
      else
        match body_opt with
        | Option.some body => do
          let (stms1, exp) ← tr body
          pure (acc.stms ++ stms1, acc.is_pure_exp && stms1.length == 0, exp)
        | Option.none => pure (acc.stms, acc.is_pure_exp, ReturnValue.implicitUnit expr.span)
    modifyS (fun s => acc.local_decls.foldl (fun s _ => s.pop_scope) s)
    match exp, is_pure_exp with
    | ReturnValue.some expv, true => do
      -- pure expression: fold the decls into Let bindings
      let expB := acc.binds.foldr (fun bnd e => Exp.mk expr.span e.typ (ExpX.bind bnd e)) expv
      modifyS (fun s =>
        { s with dont_rename := s.dont_rename ++ acc.local_decls.map (fun d => d.ident) })
      if acc.never_return then panicM "assertion failed: !never_return"
      else pure ([], ReturnValue.some expB)
    | other, _ => do
      modifyS (fun s => { s with local_decls := s.local_decls ++ acc.local_decls })
      pure ([Stm.mk expr.span (StmX.block stms)], other)

/-- `expr_to_stm_opt`, with fuel bounding the recursion depth. -/
def expr_to_stm_opt (ctx : Ctx) : Nat → Expr → M (List Stm × ReturnValue)
  | 0, _ => fun _ => Res.nofuel
  | Nat.succ fuel, expr => expr_to_stm_opt_body ctx (fun e => expr_to_stm_opt ctx fuel e) expr

/-- `expr_to_stm_or_error` at a given fuel. -/
def expr_to_stm_or_error (ctx : Ctx) (fuel : Nat) (expr : Expr) : M (List Stm × Exp) :=
  expr_to_stm_or_error_with (fun e => expr_to_stm_opt ctx fuel e) expr

/-- `expr_to_pure_exp` at a given fuel. -/
def expr_to_pure_exp (ctx : Ctx) (fuel : Nat) (expr : Expr) : M Exp :=
  expr_to_pure_exp_with (fun e => expr_to_stm_opt ctx fuel e) expr

/-- `stmt_to_stm` at a given fuel. -/
def stmt_to_stm (ctx : Ctx) (fuel : Nat) (stmt : Stmt) :
    M (List Stm × ReturnValue × Option (LocalDecl × Option Bnd)) :=
  stmt_to_stm_with ctx (fun e => expr_to_stm_opt ctx fuel e) stmt

/-! ### Specification-side descriptions used by the theorems -/

/-- The argument list of the emitted call, as the specification describes
it: cheap (small) arguments pass through unchanged; each other argument is
replaced by a reference to the next fresh temp. -/
def hoist_args (nv : Nat) : List Arg → List Exp
  | [] => []
  | a :: rest =>
    if is_small_exp_or_loc a.1 then a.1 :: hoist_args nv rest
    else Exp.mk a.1.span a.2 (ExpX.var (prefix_temp_var (nv + 1), Option.some 0)) ::
      hoist_args (nv + 1) rest

/-- The initialization statements emitted before the call: one per
non-cheap argument, initializing its fresh temp from the argument. -/
def hoist_stms (nv : Nat) : List Arg → List Stm
  | [] => []
  | a :: rest =>
    if is_small_exp_or_loc a.1 then hoist_stms nv rest
    else init_var a.1.span (prefix_temp_var (nv + 1), Option.some 0) a.1 ::
      hoist_stms (nv + 1) rest

/-- The state after hoisting: one fresh declared temp per non-cheap
argument (the same `next_temp`/`declare_new_var` steps the loop takes). -/
def hoist_state (s : State) : List Arg → State
  | [] => s
  | a :: rest =>
    if is_small_exp_or_loc a.1 then hoist_state s rest
    else
      let ((temp, _), s1) := s.next_temp a.1.span a.2
      let (_, s2) := s1.declare_new_var temp a.2 false false
      hoist_state s2 rest

/-- Generation counter currently recorded for a name. -/
def counterOf (s : State) (x : Ident) : Option Nat := lookupA s.rename_counters x

/-- The scope/renaming operations the pass performs on its `State`,
reified as a trace alphabet. -/
inductive StOp where
  | pushScope
  | popScope
  | declareNew (x : Ident) (t : Typ) (mutable : Bool) (may_need_rename : Bool)
  | declareExprVar (x : Ident)
  | insertUnique (u : UniqueIdent)

/-- Run one traced operation. -/
def runOp (s : State) : StOp → State
  | StOp.pushScope => s.push_scope
  | StOp.popScope => s.pop_scope
  | StOp.declareNew x t m r => (s.declare_new_var x t m r).2
  | StOp.declareExprVar x => s.declare_expression_var x
  | StOp.insertUnique u => s.insert_unique_var u

/-- Run a trace of operations, left to right. -/
def runOps (s : State) (ops : List StOp) : State := ops.foldl runOp s

/-- Does the translation result carry the `Never` tag? -/
def resultIsNeverTagged (r : Res ((List Stm × ReturnValue) × State)) : Bool :=
  match r with
  | Res.ok ((_, ReturnValue.never), _) => true
  | _ => false

/-! ### Concrete fixture used by witnesses and counterexamples -/

/-- A small function table: `g` (exec, returns a value), `p` (exec, no
return value), `sf` (spec). -/
def ctx0 : Ctx :=
  { func_map := [("g", ⟨Mode.exec, true⟩), ("p", ⟨Mode.exec, false⟩), ("sf", ⟨Mode.spec, true⟩)]
    inferred_modes := [(0, Mode.exec), (1, Mode.spec)]
    build_triggers := fun _ _ _ => Res.ok [] }

/-- A bounded integer type. -/
def tU32 : Typ := TypX.int (IntRange.u 32)

def wVarA : Expr := Expr.mk 1 tU32 (ExprX.var "a")

def wVarB : Expr := Expr.mk 2 tU32 (ExprX.var "b")

/-- A state with two parameters `a`, `b` registered in the outermost
scope. -/
def wState : State :=
  { State.new with rename_map := [[("a", Option.some 0), ("b", Option.some 0)]] }

/-- `wState`, additionally allowing `return;` (no return value, no
postconditions). -/
def wStateRet : State := { wState with ret_post := Option.some (Option.none, []) }

def wRetNone (sp : Span) : Expr := Expr.mk sp lowered_unit_typ (ExprX.ret Option.none)

def wHeader (sp : Span) : Expr := Expr.mk sp TypX.bool ExprX.header

def wEmptyBlock (sp : Span) : Expr := Expr.mk sp lowered_unit_typ (ExprX.block [] Option.none)

/-- `while true { }`. -/
def wWhileTrue : Expr :=
  Expr.mk 11 lowered_unit_typ
    (ExprX.whileE (Expr.mk 12 TypX.bool (ExprX.const (Constant.bool true))) (wEmptyBlock 13) [])

/-- The C1 counterexample: a binary expression whose first operand never
returns and whose second operand is an (ill-formed) header expression. -/
def c1cex : Expr := Expr.mk 20 TypX.bool (ExprX.binary BinaryOp.eq wWhileTrue (wHeader 21))

/-- The lowered reference to parameter `a`. -/
def wExpA : Exp := Exp.mk 1 tU32 (ExpX.var ("a", Option.some 0))

def wOne : Exp := Exp.mk 81 tU32 (ExpX.const (Constant.nat "1"))

def wTwo : Exp := Exp.mk 82 tU32 (ExpX.const (Constant.nat "2"))

def wConstOne : Expr := Expr.mk 81 tU32 (ExprX.const (Constant.nat "1"))

def wConstTwo : Expr := Expr.mk 82 tU32 (ExprX.const (Constant.nat "2"))

/-- An assignable but non-simple (non-`VarLoc`) location: `Loc(a)`. -/
def wLhsLoc : Expr := Expr.mk 70 tU32 (ExprX.loc (Expr.mk 71 tU32 (ExprX.var "a")))

/-- A simple variable location. -/
def wLhsVar : Expr := Expr.mk 72 tU32 (ExprX.varLoc "a")

/-- A statement-form (exec-mode, value-returning) call `g()`. -/
def wCallG : Expr := Expr.mk 73 tU32 (ExprX.call (CallTarget.static "g" []) [])

def wLhsLocExp : Exp := Exp.mk 70 tU32 (ExpX.loc (Exp.mk 71 tU32 (ExpX.var ("a", Option.some 0))))

def wLhsVarExp : Exp := Exp.mk 72 tU32 (ExpX.varLoc ("a", Option.some 0))

/-- A trivial postcondition expression. -/
def wEnsTrue : Exp := Exp.mk 100 TypX.bool (ExpX.const (Constant.bool true))

/-- A state registering a return destination `r` and one postcondition. -/
def wStateRetDest : State :=
  { wState with ret_post := Option.some (Option.some ("r", Option.some 0), [wEnsTrue]) }

/-- A state in which `x` is bound in a nested (non-outermost) scope,
shadowing the outermost binding of `x`. -/
def wStateShadow : State :=
  { State.new with rename_map := [[("x", Option.some 1)], [("x", Option.some 0)]] }

/-- The generation counter the next renamed declaration of `x` will
receive (`State::alloc_unique_var`'s computation). -/
def next_counter (s : State) (x : Ident) : Nat :=
  match lookupA s.rename_counters x with
  | Option.none => 0
  | Option.some i => i + 1

/-- Order on optional counters: an existing counter may only grow and is
never dropped. -/
def counter_le (a b : Option Nat) : Prop :=
  match a, b with
  | Option.none, _ => True
  | Option.some _, Option.none => False
  | Option.some i, Option.some j => i ≤ j

/-- A trace of scope operations that touches scopes and other names but
performs no unrenamed re-declaration of `x`. -/
def wOps : List StOp := [StOp.pushScope, StOp.declareExprVar "y", StOp.popScope]

/-- A state in which `x` already carries generation counter 0. -/
def wCState : State := (State.new.alloc_unique_var "x").2

-- THEOREMS: everything below this line is a theorem.

theorem M_bind_app (m : M α) (f : α → M β) (s : State) :
    (m >>= f) s = match m s with
      | Res.ok (a, s') => f a s'
      | Res.err e => Res.err e
      | Res.panic msg => Res.panic msg
      | Res.nofuel => Res.nofuel := rfl

theorem M_pure_app (a : α) (s : State) : (pure a : M α) s = Res.ok (a, s) := rfl

theorem expr_to_stm_opt_succ (ctx : Ctx) (fuel : Nat) (expr : Expr) :
    expr_to_stm_opt ctx (fuel + 1) expr =
      expr_to_stm_opt_body ctx (fun e => expr_to_stm_opt ctx fuel e) expr := rfl

/-- C1 (amended): in sequential constructs, the instant a sub-translation
yields `Never`, the enclosing translation returns the statements
accumulated so far tagged `Never`.  For block statements, call arguments
and constructor fields the later siblings are not lowered at all (the
result does not depend on them).  For binary operands, however, both
operands are always lowered before the check, so the rule holds only in
the weaker form: when the first operand yields `Never` (and the second
operand's lowering itself succeeds), the result is the first operand's
statements tagged `Never`, with no statement from the second operand in
the output, but with the second operand's state effects retained. -/
theorem c1_never_propagation :
    (∀ (st : Stmt → M (List Stm × ReturnValue × Option (LocalDecl × Option Bnd)))
       (stmt : Stmt) (rest : List Stmt) (acc : BlockAcc) (s : State)
       (stms0 : List Stm) (s' : State),
       st stmt s = Res.ok ((stms0, ReturnValue.never, Option.none), s') →
       block_stmts_loop st (stmt :: rest) acc s =
         Res.ok (({ acc with
                     stms := acc.stms ++ stms0
                     is_pure_exp := false
                     never_return := true } : BlockAcc), s')) ∧
    (∀ (tr : Expr → M (List Stm × ReturnValue)) (a : Expr) (rest : List Expr)
       (stms : List Stm) (exps : List Arg) (s : State) (stms0 : List Stm) (s' : State),
       tr a s = Res.ok ((stms0, ReturnValue.never), s') →
       call_args_loop tr (a :: rest) stms exps s =
         Res.ok ((stms ++ stms0, Option.none), s')) ∧
    (∀ (tr : Expr → M (List Stm × ReturnValue)) (b : Binder Expr) (rest : List (Binder Expr))
       (stms : List Stm) (args : List (Binder Exp)) (s : State) (stms0 : List Stm) (s' : State),
       tr b.a s = Res.ok ((stms0, ReturnValue.never), s') →
       ctor_fields_loop tr (b :: rest) stms args s =
         Res.ok ((stms ++ stms0, Option.none), s')) ∧
    (∀ (ctx : Ctx) (fuel : Nat) (sp : Span) (ty : Typ) (op : BinaryOp)
       (e1 e2 : Expr) (s s1 s2 : State) (stms1 stms2 : List Stm) (rv2 : ReturnValue),
       expr_to_stm_opt ctx fuel e1 s = Res.ok ((stms1, ReturnValue.never), s1) →
       expr_to_stm_opt ctx fuel e2 s1 = Res.ok ((stms2, rv2), s2) →
       expr_to_stm_opt ctx (fuel + 1) (Expr.mk sp ty (ExprX.binary op e1 e2)) s =
         Res.ok ((stms1, ReturnValue.never), s2)) := by
  refine ⟨?_, ?_, ?_, ?_⟩
  · intro st stmt rest acc s stms0 s' h
    simp only [block_stmts_loop, M_bind_app, M_pure_app, h, ofRes, check_unit_or_never]
  · intro tr a rest stms exps s stms0 s' h
    simp only [call_args_loop, M_bind_app, M_pure_app, h, ReturnValue.to_value]
  · intro tr b rest stms args s stms0 s' h
    simp only [ctor_fields_loop, M_bind_app, M_pure_app, h, ReturnValue.to_value]
  · intro ctx fuel sp ty op e1 e2 s s1 s2 stms1 stms2 rv2 h1 h2
    show expr_to_stm_opt_body ctx (fun e => expr_to_stm_opt ctx fuel e)
      (Expr.mk sp ty (ExprX.binary op e1 e2)) s = _
    simp only [expr_to_stm_opt_body, Expr.x, Expr.span, Expr.typ, M_bind_app, h1, h2]
    match hsc : short_circuit_of op, stms2 with
    | Option.some (proceed_on, other), [] => simp [ReturnValue.to_value, M_pure_app]
    | Option.some (proceed_on, other), st :: sts =>
      cases proceed_on <;> simp [if_to_stm, ReturnValue.to_value, M_pure_app]
    | Option.none, _ => simp [ReturnValue.to_value, M_pure_app]

/-- C1 counterexample: the first operand of `c1cex` lowers to `Never`,
yet the enclosing binary translation does not return the accumulated
statements tagged `Never` — the later sibling is lowered, and its lowering
error becomes the result. -/
theorem c1_counterexample :
    resultIsNeverTagged (expr_to_stm_opt ctx0 5 wWhileTrue wState) = true ∧
    resultIsNeverTagged (expr_to_stm_opt ctx0 6 c1cex wState) = false ∧
    expr_to_stm_opt ctx0 6 c1cex wState =
      Res.err (error "header expression not allowed here" 21) :=
  ⟨rfl, rfl, rfl⟩

/-- C1 witness: each conjunct of `c1_never_propagation` applied at a
concrete input. -/
theorem c1_witness :
    (stmt_to_stm_with ctx0 (fun e => expr_to_stm_opt ctx0 3 e)
        (Stmt.mk 30 (StmtX.expr (wRetNone 31))) wStateRet =
      Res.ok (([assume_false 31], ReturnValue.never, Option.none), wStateRet)) ∧
    (block_stmts_loop (stmt_to_stm_with ctx0 (fun e => expr_to_stm_opt ctx0 3 e))
        [Stmt.mk 30 (StmtX.expr (wRetNone 31)), Stmt.mk 32 (StmtX.expr (wHeader 33))]
        ⟨[], [], [], true, false⟩ wStateRet =
      Res.ok (⟨[assume_false 31], [], [], false, true⟩, wStateRet)) ∧
    (call_args_loop (fun e => expr_to_stm_opt ctx0 3 e) [wRetNone 34, wHeader 35] [] [] wStateRet =
      Res.ok (([assume_false 34], Option.none), wStateRet)) ∧
    (ctor_fields_loop (fun e => expr_to_stm_opt ctx0 3 e)
        [⟨"f1", wRetNone 36⟩, ⟨"f2", wHeader 37⟩] [] [] wStateRet =
      Res.ok (([assume_false 36], Option.none), wStateRet)) ∧
    (expr_to_stm_opt ctx0 4 (Expr.mk 39 TypX.bool (ExprX.binary BinaryOp.eq (wRetNone 38) wVarA))
        wStateRet =
      Res.ok (([assume_false 38], ReturnValue.never), wStateRet)) :=
  ⟨rfl,
   c1_never_propagation.1 _ _ _ _ _ _ _ rfl,
   c1_never_propagation.2.1 _ _ _ _ _ _ _ _ rfl,
   c1_never_propagation.2.2.1 _ _ _ _ _ _ _ _ rfl,
   c1_never_propagation.2.2.2 ctx0 3 39 TypX.bool BinaryOp.eq (wRetNone 38) wVarA
     wStateRet wStateRet wStateRet [assume_false 38] [] _ rfl rfl⟩

/-- C2: for a conditional whose condition lowers to a value, the
translation defers to `if_to_stm` on the three translated parts; when both
branches lower to `Value` with empty statement lists the result is the
condition's statements plus zero further statements and one pure ternary
value expression; when both lower to `Value` and at least one branch has
statements, exactly one fresh temp local is declared, an assignment of
each branch value to that temp is appended at the tail of the
corresponding branch block, one statement-level `If` is emitted, and the
result is `Value(temp)`. -/
theorem c2_conditional_value_merge :
    (∀ (ctx : Ctx) (fuel : Nat) (sp : Span) (ty : Typ) (c t e : Expr) (s sA sB sC : State)
       (stms0 stms1 stms2 : List Stm) (e0 e1 e2 : ReturnValue),
       expr_to_stm_opt ctx fuel c s = Res.ok ((stms0, e0), sA) →
       expr_to_stm_opt ctx fuel t sA = Res.ok ((stms1, e1), sB) →
       expr_to_stm_opt ctx fuel e sB = Res.ok ((stms2, e2), sC) →
       expr_to_stm_opt ctx (fuel + 1) (Expr.mk sp ty (ExprX.ite c t (Option.some e))) s =
         if_to_stm (Expr.mk sp ty (ExprX.ite c t (Option.some e))) stms0 e0 stms1 e1 stms2 e2 sC) ∧
    (∀ (expr : Expr) (stms0 : List Stm) (e0v v1 v2 : Exp) (s : State),
       if_to_stm expr stms0 (ReturnValue.some e0v) [] (ReturnValue.some v1)
           [] (ReturnValue.some v2) s =
         Res.ok ((stms0, ReturnValue.some (Exp.mk expr.span expr.typ (ExpX.ifE e0v v1 v2))), s)) ∧
    (∀ (expr : Expr) (stms0 stms1 stms2 : List Stm) (e0v v1 v2 : Exp) (s : State),
       (stms1.length == 0 && stms2.length == 0) = false →
       if_to_stm expr stms0 (ReturnValue.some e0v) stms1 (ReturnValue.some v1)
           stms2 (ReturnValue.some v2) s =
         Res.ok ((stms0 ++ [Stm.mk expr.span (StmX.ifS e0v
             (stms_to_one_stm expr.span (stms1 ++
               [init_var expr.span (prefix_temp_var (s.next_var + 1), Option.some 0) v1]))
             (stms_to_one_stm_opt expr.span (stms2 ++
               [init_var expr.span (prefix_temp_var (s.next_var + 1), Option.some 0) v2])))],
           ReturnValue.some (Exp.mk expr.span expr.typ
             (ExpX.var (prefix_temp_var (s.next_var + 1), Option.some 0)))),
           { s with
             next_var := s.next_var + 1
             rename_counters := (prefix_temp_var (s.next_var + 1), 0) :: s.rename_counters
             rename_map := scopeInsert s.rename_map (prefix_temp_var (s.next_var + 1)) (Option.some 0)
             local_decls := s.local_decls ++
               [⟨(prefix_temp_var (s.next_var + 1), Option.some 0), expr.typ, false⟩] })) := by
  refine ⟨?_, ?_, ?_⟩
  · intro ctx fuel sp ty c t e s sA sB sC stms0 stms1 stms2 e0 e1 e2 h0 h1 h2
    show expr_to_stm_opt_body ctx (fun e => expr_to_stm_opt ctx fuel e)
      (Expr.mk sp ty (ExprX.ite c t (Option.some e))) s = _
    simp only [expr_to_stm_opt_body, Expr.x, M_bind_app, h0, h1, h2]
  · intro expr stms0 e0v v1 v2 s
    simp [if_to_stm, ReturnValue.to_value, M_pure_app]
  · intro expr stms0 stms1 stms2 e0v v1 v2 s h
    simp only [if_to_stm, ReturnValue.to_value, h, M_bind_app, M_pure_app, getS, setS,
      State.next_temp, State.declare_new_var, State.new_statement_var, Bool.false_eq_true,
      if_false]

/-- C2 witness: both `if_to_stm` shapes and the `ExprX::If` wiring at
concrete inputs. -/
theorem c2_witness :
    (expr_to_stm_opt ctx0 1 wVarA wState = Res.ok (([], ReturnValue.some wExpA), wState)) ∧
    (expr_to_stm_opt ctx0 2 (Expr.mk 80 tU32 (ExprX.ite wVarA wConstOne (Option.some wConstTwo)))
        wState =
      if_to_stm (Expr.mk 80 tU32 (ExprX.ite wVarA wConstOne (Option.some wConstTwo)))
        [] (ReturnValue.some wExpA) [] (ReturnValue.some wOne) [] (ReturnValue.some wTwo) wState) ∧
    (if_to_stm wVarA [] (ReturnValue.some wExpA) [] (ReturnValue.some wOne)
        [] (ReturnValue.some wTwo) wState =
      Res.ok (([], ReturnValue.some (Exp.mk 1 tU32 (ExpX.ifE wExpA wOne wTwo))), wState)) ∧
    (([assume_false 90].length == 0 && ([] : List Stm).length == 0) = false) ∧
    (if_to_stm wVarA [] (ReturnValue.some wExpA) [assume_false 90] (ReturnValue.some wOne)
        [] (ReturnValue.some wTwo) wState =
      Res.ok (([Stm.mk 1 (StmX.ifS wExpA
          (stms_to_one_stm 1 [assume_false 90, init_var 1 (prefix_temp_var 1, Option.some 0) wOne])
          (stms_to_one_stm_opt 1 [init_var 1 (prefix_temp_var 1, Option.some 0) wTwo]))],
        ReturnValue.some (Exp.mk 1 tU32 (ExpX.var (prefix_temp_var 1, Option.some 0)))),
        { wState with
          next_var := 1
          rename_counters := [(prefix_temp_var 1, 0)]
          rename_map := scopeInsert wState.rename_map (prefix_temp_var 1) (Option.some 0)
          local_decls := [⟨(prefix_temp_var 1, Option.some 0), tU32, false⟩] })) :=
  ⟨rfl,
   c2_conditional_value_merge.1 ctx0 1 80 tU32 wVarA wConstOne wConstTwo
     wState wState wState wState [] [] [] _ _ _ rfl rfl rfl,
   c2_conditional_value_merge.2.1 wVarA [] wExpA wOne wTwo wState,
   rfl,
   c2_conditional_value_merge.2.2 wVarA [] [assume_false 90] [] wExpA wOne wTwo wState rfl⟩

/-- C3: a binary add/sub/mul whose declared result type is a bounded
integer range, translated with `view_as_spec = false` and an inferred mode
other than spec, emits exactly one assertion immediately after both
operands' statements, asserting the computed result fits the declared
range, with message "possible arithmetic underflow/overflow"; a Euclidean
div/mod under the same conditions asserts the divisor is non-zero with
message "possible division by zero"; with `view_as_spec = true` or
inferred mode spec, no assertion is emitted. -/
theorem c3_checked_arith_instrumentation :
    (∀ (ctx : Ctx) (fuel : Nat) (sp : Span) (w : Nat) (a : ArithOp) (im : Nat) (m : Mode)
       (e1 e2 : Expr) (s s1 s2 : State) (stms1 stms2 : List Stm) (v1 v2 : Exp) (ty : Typ),
       expr_to_stm_opt ctx fuel e1 s = Res.ok ((stms1, ReturnValue.some v1), s1) →
       expr_to_stm_opt ctx fuel e2 s1 = Res.ok ((stms2, ReturnValue.some v2), s2) →
       lookupA ctx.inferred_modes im = Option.some m →
       (m = Mode.proof ∨ m = Mode.exec) →
       s2.view_as_spec = false →
       (ty = TypX.int (IntRange.u w) ∨ ty = TypX.int (IntRange.i w)) →
       (a = ArithOp.add ∨ a = ArithOp.sub ∨ a = ArithOp.mul) →
       expr_to_stm_opt ctx (fuel + 1) (Expr.mk sp ty (ExprX.binary (BinaryOp.arith a im) e1 e2)) s =
         Res.ok ((stms1 ++ stms2 ++
             [Stm.mk sp (StmX.assert
               (Option.some (error "possible arithmetic underflow/overflow" sp))
               (Exp.mk sp TypX.bool (ExpX.unaryOpr (UnaryOpr.hasType ty)
                 (Exp.mk sp ty (ExpX.binary (BinaryOp.arith a im) v1 v2)))))],
           ReturnValue.some (Exp.mk sp ty (ExpX.binary (BinaryOp.arith a im) v1 v2))), s2)) ∧
    (∀ (ctx : Ctx) (fuel : Nat) (sp : Span) (w : Nat) (a : ArithOp) (im : Nat) (m : Mode)
       (e1 e2 : Expr) (s s1 s2 : State) (stms1 stms2 : List Stm) (v1 v2 : Exp) (ty : Typ),
       expr_to_stm_opt ctx fuel e1 s = Res.ok ((stms1, ReturnValue.some v1), s1) →
       expr_to_stm_opt ctx fuel e2 s1 = Res.ok ((stms2, ReturnValue.some v2), s2) →
       lookupA ctx.inferred_modes im = Option.some m →
       (m = Mode.proof ∨ m = Mode.exec) →
       s2.view_as_spec = false →
       (ty = TypX.int (IntRange.u w) ∨ ty = TypX.int (IntRange.i w)) →
       (a = ArithOp.euclideanDiv ∨ a = ArithOp.euclideanMod) →
       expr_to_stm_opt ctx (fuel + 1) (Expr.mk sp ty (ExprX.binary (BinaryOp.arith a im) e1 e2)) s =
         Res.ok ((stms1 ++ stms2 ++
             [Stm.mk sp (StmX.assert
               (Option.some (error "possible division by zero" sp))
               (Exp.mk sp TypX.bool (ExpX.binary BinaryOp.ne v2
                 (v2.new_x (ExpX.const (Constant.nat "0"))))))],
           ReturnValue.some (Exp.mk sp ty (ExpX.binary (BinaryOp.arith a im) v1 v2))), s2)) ∧
    (∀ (ctx : Ctx) (fuel : Nat) (sp : Span) (a : ArithOp) (im : Nat)
       (e1 e2 : Expr) (s s1 s2 : State) (stms1 stms2 : List Stm) (v1 v2 : Exp) (ty : Typ),
       expr_to_stm_opt ctx fuel e1 s = Res.ok ((stms1, ReturnValue.some v1), s1) →
       expr_to_stm_opt ctx fuel e2 s1 = Res.ok ((stms2, ReturnValue.some v2), s2) →
       lookupA ctx.inferred_modes im = Option.some Mode.spec →
       s2.view_as_spec = false →
       expr_to_stm_opt ctx (fuel + 1) (Expr.mk sp ty (ExprX.binary (BinaryOp.arith a im) e1 e2)) s =
         Res.ok ((stms1 ++ stms2,
           ReturnValue.some (Exp.mk sp ty (ExpX.binary (BinaryOp.arith a im) v1 v2))), s2)) ∧
    (∀ (ctx : Ctx) (fuel : Nat) (sp : Span) (a : ArithOp) (im : Nat) (m : Mode)
       (e1 e2 : Expr) (s s1 s2 : State) (stms1 stms2 : List Stm) (v1 v2 : Exp) (ty : Typ),
       expr_to_stm_opt ctx fuel e1 s = Res.ok ((stms1, ReturnValue.some v1), s1) →
       expr_to_stm_opt ctx fuel e2 s1 = Res.ok ((stms2, ReturnValue.some v2), s2) →
       lookupA ctx.inferred_modes im = Option.some m →
       s2.view_as_spec = true →
       expr_to_stm_opt ctx (fuel + 1) (Expr.mk sp ty (ExprX.binary (BinaryOp.arith a im) e1 e2)) s =
         Res.ok ((stms1 ++ stms2,
           ReturnValue.some (Exp.mk sp ty (ExpX.binary (BinaryOp.arith a im) v1 v2))), s2)) := by
  refine ⟨?_, ?_, ?_, ?_⟩
  · intro ctx fuel sp w a im m e1 e2 s s1 s2 stms1 stms2 v1 v2 ty h1 h2 hm hmode hview hty ha
    show expr_to_stm_opt_body ctx (fun e => expr_to_stm_opt ctx fuel e)
      (Expr.mk sp ty (ExprX.binary (BinaryOp.arith a im) e1 e2)) s = _
    simp only [expr_to_stm_opt_body, Expr.x, Expr.span, Expr.typ, M_bind_app, h1, h2,
      short_circuit_of, ReturnValue.to_value, ofRes, inferred_mode_get, hm, getS, M_pure_app]
    rcases hmode with rfl | rfl <;> rcases hty with rfl | rfl <;>
      rcases ha with rfl | rfl | rfl <;> simp [hview, M_pure_app, Exp.new_x]
  · intro ctx fuel sp w a im m e1 e2 s s1 s2 stms1 stms2 v1 v2 ty h1 h2 hm hmode hview hty ha
    show expr_to_stm_opt_body ctx (fun e => expr_to_stm_opt ctx fuel e)
      (Expr.mk sp ty (ExprX.binary (BinaryOp.arith a im) e1 e2)) s = _
    simp only [expr_to_stm_opt_body, Expr.x, Expr.span, Expr.typ, M_bind_app, h1, h2,
      short_circuit_of, ReturnValue.to_value, ofRes, inferred_mode_get, hm, getS, M_pure_app]
    rcases hmode with rfl | rfl <;> rcases hty with rfl | rfl <;>
      rcases ha with rfl | rfl <;> simp [hview, M_pure_app, Exp.new_x, Exp.span, Exp.typ]
  · intro ctx fuel sp a im e1 e2 s s1 s2 stms1 stms2 v1 v2 ty h1 h2 hm hview
    show expr_to_stm_opt_body ctx (fun e => expr_to_stm_opt ctx fuel e)
      (Expr.mk sp ty (ExprX.binary (BinaryOp.arith a im) e1 e2)) s = _
    simp only [expr_to_stm_opt_body, Expr.x, Expr.span, Expr.typ, M_bind_app, h1, h2,
      short_circuit_of, ReturnValue.to_value, ofRes, inferred_mode_get, hm, getS, M_pure_app]
    simp [hview, M_pure_app]
  · intro ctx fuel sp a im m e1 e2 s s1 s2 stms1 stms2 v1 v2 ty h1 h2 hm hview
    show expr_to_stm_opt_body ctx (fun e => expr_to_stm_opt ctx fuel e)
      (Expr.mk sp ty (ExprX.binary (BinaryOp.arith a im) e1 e2)) s = _
    simp only [expr_to_stm_opt_body, Expr.x, Expr.span, Expr.typ, M_bind_app, h1, h2,
      short_circuit_of, ReturnValue.to_value, ofRes, inferred_mode_get, hm, getS, M_pure_app]
    simp [hview, M_pure_app]

/-- C3 witness: `a + b` and `a / b` at type `u32`, in exec mode (one
assert each, with the two diagnostic messages) and in spec inferred mode
(no assert). -/
theorem c3_witness :
    (expr_to_stm_opt ctx0 1 wVarA wState = Res.ok (([], ReturnValue.some wExpA), wState)) ∧
    (lookupA ctx0.inferred_modes 0 = Option.some Mode.exec) ∧
    (wState.view_as_spec = false) ∧
    (expr_to_stm_opt ctx0 2
        (Expr.mk 5 tU32 (ExprX.binary (BinaryOp.arith ArithOp.add 0) wVarA wVarB)) wState =
      Res.ok (([Stm.mk 5 (StmX.assert
            (Option.some (error "possible arithmetic underflow/overflow" 5))
            (Exp.mk 5 TypX.bool (ExpX.unaryOpr (UnaryOpr.hasType tU32)
              (Exp.mk 5 tU32 (ExpX.binary (BinaryOp.arith ArithOp.add 0) wExpA
                (Exp.mk 2 tU32 (ExpX.var ("b", Option.some 0))))))))],
          ReturnValue.some (Exp.mk 5 tU32 (ExpX.binary (BinaryOp.arith ArithOp.add 0) wExpA
            (Exp.mk 2 tU32 (ExpX.var ("b", Option.some 0)))))), wState)) ∧
    (expr_to_stm_opt ctx0 2
        (Expr.mk 6 tU32 (ExprX.binary (BinaryOp.arith ArithOp.euclideanDiv 0) wVarA wVarB)) wState =
      Res.ok (([Stm.mk 6 (StmX.assert
            (Option.some (error "possible division by zero" 6))
            (Exp.mk 6 TypX.bool (ExpX.binary BinaryOp.ne
              (Exp.mk 2 tU32 (ExpX.var ("b", Option.some 0)))
              (Exp.mk 2 tU32 (ExpX.const (Constant.nat "0"))))))],
          ReturnValue.some (Exp.mk 6 tU32 (ExpX.binary (BinaryOp.arith ArithOp.euclideanDiv 0)
            wExpA (Exp.mk 2 tU32 (ExpX.var ("b", Option.some 0)))))), wState)) ∧
    (expr_to_stm_opt ctx0 2
        (Expr.mk 7 tU32 (ExprX.binary (BinaryOp.arith ArithOp.add 1) wVarA wVarB)) wState =
      Res.ok (([],
          ReturnValue.some (Exp.mk 7 tU32 (ExpX.binary (BinaryOp.arith ArithOp.add 1) wExpA
            (Exp.mk 2 tU32 (ExpX.var ("b", Option.some 0)))))), wState)) :=
  ⟨rfl, rfl, rfl,
   c3_checked_arith_instrumentation.1 ctx0 1 5 32 ArithOp.add 0 Mode.exec wVarA wVarB
     wState wState wState [] [] wExpA (Exp.mk 2 tU32 (ExpX.var ("b", Option.some 0))) tU32
     rfl rfl rfl (Or.inr rfl) rfl (Or.inl rfl) (Or.inl rfl),
   c3_checked_arith_instrumentation.2.1 ctx0 1 6 32 ArithOp.euclideanDiv 0 Mode.exec wVarA wVarB
     wState wState wState [] [] wExpA (Exp.mk 2 tU32 (ExpX.var ("b", Option.some 0))) tU32
     rfl rfl rfl (Or.inr rfl) rfl (Or.inl rfl) (Or.inl rfl),
   c3_checked_arith_instrumentation.2.2.1 ctx0 1 7 ArithOp.add 1 wVarA wVarB
     wState wState wState [] [] wExpA (Exp.mk 2 tU32 (ExpX.var ("b", Option.some 0))) tU32
     rfl rfl rfl rfl⟩

/-- C4: lowering a while-loop whose condition lowers to a value and whose
body passes the unit-or-never check emits the loop statement followed by
an unconditional-false assumption with ReturnValue `Never` exactly when
the condition is syntactically the literal `true`; for every other
condition it emits the loop statement alone with ReturnValue
`ImplicitUnit`.  (`can_control_flow_reach_after_loop` answers `false`
exactly on the literal-`true` condition.) -/
theorem c4_loop_reachability :
    (∀ (sp : Span) (ty : Typ) (cond body : Expr) (invs : List Expr),
       can_control_flow_reach_after_loop (Expr.mk sp ty (ExprX.whileE cond body invs)) =
         Res.ok (!(cond_is_literal_true cond))) ∧
    (∀ (ctx : Ctx) (fuel : Nat) (sp : Span) (ty : Typ) (cond body : Expr) (invs : List Expr)
       (s sA sB sC : State) (stms0 stms1 : List Stm) (e0 : Exp) (rv1 : ReturnValue)
       (invs' : List Exp),
       expr_to_stm_opt ctx fuel cond s = Res.ok ((stms0, ReturnValue.some e0), sA) →
       expr_to_stm_opt ctx fuel body sA = Res.ok ((stms1, rv1), sB) →
       check_unit_or_never rv1 = Res.ok () →
       pure_exps_loop (fun e => expr_to_stm_opt ctx fuel e) invs sB = Res.ok (invs', sC) →
       cond_is_literal_true cond = true →
       expr_to_stm_opt ctx (fuel + 1) (Expr.mk sp ty (ExprX.whileE cond body invs)) s =
         Res.ok (([Stm.mk sp (StmX.whileS stms0 e0 (stms_to_one_stm body.span stms1) invs' [] []),
             assume_false sp], ReturnValue.never), sC)) ∧
    (∀ (ctx : Ctx) (fuel : Nat) (sp : Span) (ty : Typ) (cond body : Expr) (invs : List Expr)
       (s sA sB sC : State) (stms0 stms1 : List Stm) (e0 : Exp) (rv1 : ReturnValue)
       (invs' : List Exp),
       expr_to_stm_opt ctx fuel cond s = Res.ok ((stms0, ReturnValue.some e0), sA) →
       expr_to_stm_opt ctx fuel body sA = Res.ok ((stms1, rv1), sB) →
       check_unit_or_never rv1 = Res.ok () →
       pure_exps_loop (fun e => expr_to_stm_opt ctx fuel e) invs sB = Res.ok (invs', sC) →
       cond_is_literal_true cond = false →
       expr_to_stm_opt ctx (fuel + 1) (Expr.mk sp ty (ExprX.whileE cond body invs)) s =
         Res.ok (([Stm.mk sp (StmX.whileS stms0 e0 (stms_to_one_stm body.span stms1) invs' [] [])],
           ReturnValue.implicitUnit sp), sC)) := by
  have hreach : ∀ (sp : Span) (ty : Typ) (cond body : Expr) (invs : List Expr),
      can_control_flow_reach_after_loop (Expr.mk sp ty (ExprX.whileE cond body invs)) =
        Res.ok (!(cond_is_literal_true cond)) := by
    intro sp ty cond body invs
    obtain ⟨csp, cty, cx⟩ := cond
    cases cx <;> simp [can_control_flow_reach_after_loop, cond_is_literal_true, Expr.x]
    case const c =>
      cases c with
      | bool b => cases b <;> simp
      | nat d => simp
  refine ⟨hreach, ?_, ?_⟩
  · intro ctx fuel sp ty cond body invs s sA sB sC stms0 stms1 e0 rv1 invs' h0 h1 hck hinvs hlit
    show expr_to_stm_opt_body ctx (fun e => expr_to_stm_opt ctx fuel e)
      (Expr.mk sp ty (ExprX.whileE cond body invs)) s = _
    simp only [expr_to_stm_opt_body, Expr.x, Expr.span, Expr.typ, M_bind_app, h0, h1, hck,
      hinvs, ofRes, M_pure_app, hreach, hlit, Bool.not_true]
    simp [M_pure_app]
  · intro ctx fuel sp ty cond body invs s sA sB sC stms0 stms1 e0 rv1 invs' h0 h1 hck hinvs hlit
    show expr_to_stm_opt_body ctx (fun e => expr_to_stm_opt ctx fuel e)
      (Expr.mk sp ty (ExprX.whileE cond body invs)) s = _
    simp only [expr_to_stm_opt_body, Expr.x, Expr.span, Expr.typ, M_bind_app, h0, h1, hck,
      hinvs, ofRes, M_pure_app, hreach, hlit, Bool.not_false]
    simp [M_pure_app]

/-- C4 witness: `while true { }` yields the loop plus an
unconditional-false assumption and `Never`; `while a { }` yields the loop
alone and `ImplicitUnit`. -/
theorem c4_witness :
    (cond_is_literal_true (Expr.mk 12 TypX.bool (ExprX.const (Constant.bool true))) = true) ∧
    (expr_to_stm_opt ctx0 3 wWhileTrue wState =
      Res.ok (([Stm.mk 11 (StmX.whileS []
            (Exp.mk 12 TypX.bool (ExpX.const (Constant.bool true)))
            (stms_to_one_stm 13 [Stm.mk 13 (StmX.block [])]) [] [] []),
          assume_false 11], ReturnValue.never), wState)) ∧
    (cond_is_literal_true (Expr.mk 14 TypX.bool (ExprX.var "a")) = false) ∧
    (expr_to_stm_opt ctx0 3
        (Expr.mk 15 lowered_unit_typ
          (ExprX.whileE (Expr.mk 14 TypX.bool (ExprX.var "a")) (wEmptyBlock 16) [])) wState =
      Res.ok (([Stm.mk 15 (StmX.whileS []
            (Exp.mk 14 TypX.bool (ExpX.var ("a", Option.some 0)))
            (stms_to_one_stm 16 [Stm.mk 16 (StmX.block [])]) [] [] [])],
          ReturnValue.implicitUnit 15), wState)) :=
  ⟨rfl,
   c4_loop_reachability.2.1 ctx0 2 11 lowered_unit_typ
     (Expr.mk 12 TypX.bool (ExprX.const (Constant.bool true))) (wEmptyBlock 13) []
     wState wState wState wState [] [Stm.mk 13 (StmX.block [])] _ _ [] rfl rfl rfl rfl rfl,
   rfl,
   c4_loop_reachability.2.2 ctx0 2 15 lowered_unit_typ
     (Expr.mk 14 TypX.bool (ExprX.var "a")) (wEmptyBlock 16) []
     wState wState wState wState [] [Stm.mk 16 (StmX.block [])] _ _ [] rfl rfl rfl rfl rfl⟩

theorem stm_call_loop_spec (args : List Arg) :
    ∀ (s : State) (smalls : List Exp) (stms : List Stm),
      stm_call_loop s args smalls stms =
        (smalls ++ hoist_args s.next_var args, stms ++ hoist_stms s.next_var args,
          hoist_state s args) := by
  induction args with
  | nil => intro s smalls stms; simp [stm_call_loop, hoist_args, hoist_stms, hoist_state]
  | cons a rest ih =>
    intro s smalls stms
    by_cases h : is_small_exp_or_loc a.1 = true
    · simp [stm_call_loop, hoist_args, hoist_stms, hoist_state, h, ih]
    · simp only [Bool.not_eq_true] at h
      simp [stm_call_loop, hoist_args, hoist_stms, hoist_state, h, ih,
        State.next_temp, State.declare_new_var, State.new_statement_var]

/-- C5: for every statement-form call, every argument that is not already
small (cheap) is hoisted — a fresh temp local is declared and initialized
from the argument before the call statement and the call references the
temp — while every small argument is passed through unchanged; the call
carries exactly one argument per original argument and exactly one init
statement per non-small argument. -/
theorem c5_call_argument_hoisting :
    (∀ (s : State) (span : Span) (name : Func) (typs : Typs) (args : List Arg)
       (dest : Option Dest),
       stm_call s span name typs args dest =
         (stms_to_one_stm span (hoist_stms s.next_var args ++
             [Stm.mk span (StmX.call name typs (hoist_args s.next_var args) dest)]),
           hoist_state s args)) ∧
    (∀ (nv : Nat) (args : List Arg), (hoist_args nv args).length = args.length) ∧
    (∀ (nv : Nat) (args : List Arg),
       (hoist_stms nv args).length = args.countP (fun a => !(is_small_exp_or_loc a.1))) := by
  refine ⟨?_, ?_, ?_⟩
  · intro s span name typs args dest
    simp [stm_call, stm_call_loop_spec]
  · intro nv args
    induction args generalizing nv with
    | nil => simp [hoist_args]
    | cons a rest ih =>
      by_cases h : is_small_exp_or_loc a.1 = true <;>
        simp [hoist_args, h, ih]
  · intro nv args
    induction args generalizing nv with
    | nil => simp [hoist_stms]
    | cons a rest ih =>
      by_cases h : is_small_exp_or_loc a.1 = true <;>
        simp [hoist_stms, List.countP_cons, h, ih]

/-- C6 (amended): when a statement-form call's result is assigned to a
location: a simple variable location (`VarLoc`) is used directly as the
call's destination, with its init flag taken from the assignment; a
first-write (`init_not_mut`) into a non-simple location is an
internal-invariant violation that aborts (first-write destinations must be
simple locations); a non-first-write assignment into a non-simple location
gives the call a fresh temp as destination followed by an explicit
assignment from the temp into the location. -/
theorem c6_call_destination :
    (∀ (ctx : Ctx) (fuel : Nat) (sp : Span) (ty : Typ) (inm : Bool) (lhs_expr expr2 : Expr)
       (s sA sB : State) (stms stms2 : List Stm) (lhsExp : Exp) (fn : Func) (typs : Typs)
       (hr : Bool) (args : List Arg),
       expr_to_stm_opt ctx fuel lhs_expr s = Res.ok ((stms, ReturnValue.some lhsExp), sA) →
       isVarLoc lhsExp = true →
       expr_must_be_call_stm_with ctx (fun e => expr_to_stm_opt ctx fuel e) expr2 sA =
         Res.ok ((Option.some (stms2, ReturnedCall.call fn typs hr args)), sB) →
       expr_to_stm_opt ctx (fuel + 1) (Expr.mk sp ty (ExprX.assign inm lhs_expr expr2)) s =
         Res.ok ((stms ++ stms2 ++
             [(stm_call sB sp fn typs args (Option.some ⟨lhsExp, inm⟩)).1],
           ReturnValue.implicitUnit sp),
           (stm_call sB sp fn typs args (Option.some ⟨lhsExp, inm⟩)).2)) ∧
    (∀ (ctx : Ctx) (fuel : Nat) (sp : Span) (ty : Typ) (lhs_expr expr2 : Expr)
       (s sA sB : State) (stms stms2 : List Stm) (lhsExp : Exp) (fn : Func) (typs : Typs)
       (hr : Bool) (args : List Arg),
       expr_to_stm_opt ctx fuel lhs_expr s = Res.ok ((stms, ReturnValue.some lhsExp), sA) →
       isVarLoc lhsExp = false →
       expr_must_be_call_stm_with ctx (fun e => expr_to_stm_opt ctx fuel e) expr2 sA =
         Res.ok ((Option.some (stms2, ReturnedCall.call fn typs hr args)), sB) →
       expr_to_stm_opt ctx (fuel + 1) (Expr.mk sp ty (ExprX.assign true lhs_expr expr2)) s =
         Res.panic "init_not_mut unexpected for complex call dest") ∧
    (∀ (ctx : Ctx) (fuel : Nat) (sp : Span) (ty : Typ) (lhs_expr expr2 : Expr)
       (s sA sB : State) (stms stms2 : List Stm) (lhsExp : Exp) (fn : Func) (typs : Typs)
       (hr : Bool) (args : List Arg),
       expr_to_stm_opt ctx fuel lhs_expr s = Res.ok ((stms, ReturnValue.some lhsExp), sA) →
       isVarLoc lhsExp = false →
       expr_must_be_call_stm_with ctx (fun e => expr_to_stm_opt ctx fuel e) expr2 sA =
         Res.ok ((Option.some (stms2, ReturnedCall.call fn typs hr args)), sB) →
       expr_to_stm_opt ctx (fuel + 1) (Expr.mk sp ty (ExprX.assign false lhs_expr expr2)) s =
         Res.ok ((stms ++ stms2 ++
             [(stm_call
                 { sB with
                   next_var := sB.next_var + 1
                   rename_counters := (prefix_temp_var (sB.next_var + 1), 0) ::
                     sB.rename_counters
                   rename_map := scopeInsert sB.rename_map
                     (prefix_temp_var (sB.next_var + 1)) (Option.some 0)
                   local_decls := sB.local_decls ++
                     [⟨(prefix_temp_var (sB.next_var + 1), Option.some 0), expr2.typ, false⟩] }
                 sp fn typs args
                 (Option.some ⟨var_loc_exp lhsExp.span expr2.typ
                   (prefix_temp_var (sB.next_var + 1), Option.some 0), true⟩)).1,
              Stm.mk lhsExp.span (StmX.assign ⟨lhsExp, false⟩
                (Exp.mk lhsExp.span expr2.typ
                  (ExpX.var (prefix_temp_var (sB.next_var + 1), Option.some 0))))],
           ReturnValue.implicitUnit sp),
           (stm_call
               { sB with
                 next_var := sB.next_var + 1
                 rename_counters := (prefix_temp_var (sB.next_var + 1), 0) ::
                   sB.rename_counters
                 rename_map := scopeInsert sB.rename_map
                   (prefix_temp_var (sB.next_var + 1)) (Option.some 0)
                 local_decls := sB.local_decls ++
                   [⟨(prefix_temp_var (sB.next_var + 1), Option.some 0), expr2.typ, false⟩] }
               sp fn typs args
               (Option.some ⟨var_loc_exp lhsExp.span expr2.typ
                 (prefix_temp_var (sB.next_var + 1), Option.some 0), true⟩)).2)) := by
  refine ⟨?_, ?_, ?_⟩
  · intro ctx fuel sp ty inm lhs_expr expr2 s sA sB stms stms2 lhsExp fn typs hr args
      h1 hvl h2
    show expr_to_stm_opt_body ctx (fun e => expr_to_stm_opt ctx fuel e)
      (Expr.mk sp ty (ExprX.assign inm lhs_expr expr2)) s = _
    simp only [expr_to_stm_opt_body, Expr.x, Expr.span, Expr.typ, M_bind_app, M_pure_app,
      h1, h2, ReturnValue.expect_value, ofRes, hvl, getS, setS, if_true]
  · intro ctx fuel sp ty lhs_expr expr2 s sA sB stms stms2 lhsExp fn typs hr args h1 hvl h2
    show expr_to_stm_opt_body ctx (fun e => expr_to_stm_opt ctx fuel e)
      (Expr.mk sp ty (ExprX.assign true lhs_expr expr2)) s = _
    simp only [expr_to_stm_opt_body, Expr.x, Expr.span, Expr.typ, M_bind_app, M_pure_app,
      h1, h2, ReturnValue.expect_value, ofRes, hvl, getS, setS, panicM, Bool.false_eq_true,
      if_false, if_true]
  · intro ctx fuel sp ty lhs_expr expr2 s sA sB stms stms2 lhsExp fn typs hr args h1 hvl h2
    show expr_to_stm_opt_body ctx (fun e => expr_to_stm_opt ctx fuel e)
      (Expr.mk sp ty (ExprX.assign false lhs_expr expr2)) s = _
    simp only [expr_to_stm_opt_body, Expr.x, Expr.span, Expr.typ, M_bind_app, M_pure_app,
      h1, h2, ReturnValue.expect_value, ofRes, hvl, getS, setS, Bool.false_eq_true, if_false,
      State.next_temp, State.declare_new_var, State.new_statement_var]

/-- C6 counterexample: a first-write assignment of a call into the
non-simple location `Loc(a)` aborts with an internal panic rather than
taking the temp-plus-assignment path the claim describes. -/
theorem c6_counterexample :
    expr_to_stm_opt ctx0 5 (Expr.mk 74 lowered_unit_typ (ExprX.assign true wLhsLoc wCallG))
        wState =
      Res.panic "init_not_mut unexpected for complex call dest" := rfl

/-- C6 witness: the three destination shapes at concrete inputs. -/
theorem c6_witness :
    (expr_to_stm_opt ctx0 2 wLhsVar wState = Res.ok (([], ReturnValue.some wLhsVarExp), wState)) ∧
    (isVarLoc wLhsVarExp = true) ∧
    (expr_to_stm_opt ctx0 3 (Expr.mk 74 lowered_unit_typ (ExprX.assign true wLhsVar wCallG))
        wState =
      Res.ok (([Stm.mk 74 (StmX.call "g" [] [] (Option.some ⟨wLhsVarExp, true⟩))],
        ReturnValue.implicitUnit 74), wState)) ∧
    (expr_to_stm_opt ctx0 2 wLhsLoc wState = Res.ok (([], ReturnValue.some wLhsLocExp), wState)) ∧
    (isVarLoc wLhsLocExp = false) ∧
    (expr_to_stm_opt ctx0 3 (Expr.mk 75 lowered_unit_typ (ExprX.assign true wLhsLoc wCallG))
        wState =
      Res.panic "init_not_mut unexpected for complex call dest") ∧
    (expr_to_stm_opt ctx0 3 (Expr.mk 76 lowered_unit_typ (ExprX.assign false wLhsLoc wCallG))
        wState =
      Res.ok (([Stm.mk 76 (StmX.call "g" [] []
            (Option.some ⟨var_loc_exp 70 tU32 (prefix_temp_var 1, Option.some 0), true⟩)),
          Stm.mk 70 (StmX.assign ⟨wLhsLocExp, false⟩
            (Exp.mk 70 tU32 (ExpX.var (prefix_temp_var 1, Option.some 0))))],
        ReturnValue.implicitUnit 76),
        { wState with
          next_var := 1
          rename_counters := [(prefix_temp_var 1, 0)]
          rename_map := scopeInsert wState.rename_map (prefix_temp_var 1) (Option.some 0)
          local_decls := [⟨(prefix_temp_var 1, Option.some 0), tU32, false⟩] })) :=
  ⟨rfl, rfl,
   c6_call_destination.1 ctx0 2 74 lowered_unit_typ true wLhsVar wCallG
     wState wState wState [] [] wLhsVarExp "g" [] true [] rfl rfl rfl,
   rfl, rfl,
   c6_call_destination.2.1 ctx0 2 75 lowered_unit_typ wLhsLoc wCallG
     wState wState wState [] [] wLhsLocExp "g" [] true [] rfl rfl rfl,
   c6_call_destination.2.2 ctx0 2 76 lowered_unit_typ wLhsLoc wCallG
     wState wState wState [] [] wLhsLocExp "g" [] true [] rfl rfl rfl⟩

/-- C7 (amended): with a return destination and postconditions registered,
a `return e` lowers `e` into the destination, emits one assertion tagged
"postcondition not satisfied" (labelled at the exit and at the failed
clause) per postcondition, then an unconditional-false assumption, and
yields `Never`.  A returned value where the signature expects none is a
recoverable diagnosed error ("return value not allowed here"), and a
return outside any function context is a recoverable diagnosed error
("return expression not allowed here"); but a MISSING returned value where
the signature expects one is an internal-invariant panic, not a diagnosed
error. -/
theorem c7_return_lowering :
    (∀ (ctx : Ctx) (fuel : Nat) (sp : Span) (ty : Typ) (e : Expr) (dest : UniqueIdent)
       (enss : List Exp) (s sA : State) (rstms : List Stm) (v : Exp),
       s.ret_post = Option.some (Option.some dest, enss) →
       expr_to_stm_opt ctx fuel e s = Res.ok ((rstms, ReturnValue.some v), sA) →
       expr_to_stm_opt ctx (fuel + 1) (Expr.mk sp ty (ExprX.ret (Option.some e))) s =
         Res.ok ((rstms ++ [init_var sp dest v] ++
             enss.map (fun ens => Stm.mk sp (StmX.assert
               (Option.some ((error_with_label "postcondition not satisfied" sp
                 "at this exit").secondary_label ens.span "failed this postcondition")) ens)) ++
             [assume_false sp], ReturnValue.never), sA)) ∧
    (∀ (ctx : Ctx) (fuel : Nat) (sp : Span) (ty : Typ) (e : Expr)
       (enss : List Exp) (s : State),
       s.ret_post = Option.some (Option.none, enss) →
       expr_to_stm_opt ctx (fuel + 1) (Expr.mk sp ty (ExprX.ret (Option.some e))) s =
         Res.err (error "return value not allowed here" e.span)) ∧
    (∀ (ctx : Ctx) (fuel : Nat) (sp : Span) (ty : Typ) (e1 : Option Expr) (s : State),
       s.ret_post = Option.none →
       expr_to_stm_opt ctx (fuel + 1) (Expr.mk sp ty (ExprX.ret e1)) s =
         Res.err (error "return expression not allowed here" sp)) ∧
    (∀ (ctx : Ctx) (fuel : Nat) (sp : Span) (ty : Typ) (dest : UniqueIdent)
       (enss : List Exp) (s : State),
       s.ret_post = Option.some (Option.some dest, enss) →
       expr_to_stm_opt ctx (fuel + 1) (Expr.mk sp ty (ExprX.ret Option.none)) s =
         Res.panic "internal error: return value expected") ∧
    (∀ (ctx : Ctx) (fuel : Nat) (sp : Span) (ty : Typ) (enss : List Exp) (s : State),
       s.ret_post = Option.some (Option.none, enss) →
       expr_to_stm_opt ctx (fuel + 1) (Expr.mk sp ty (ExprX.ret Option.none)) s =
         Res.ok ((enss.map (fun ens => Stm.mk sp (StmX.assert
             (Option.some ((error_with_label "postcondition not satisfied" sp
               "at this exit").secondary_label ens.span "failed this postcondition")) ens)) ++
           [assume_false sp], ReturnValue.never), s)) := by
  refine ⟨?_, ?_, ?_, ?_, ?_⟩
  · intro ctx fuel sp ty e dest enss s sA rstms v hr h1
    show expr_to_stm_opt_body ctx (fun e => expr_to_stm_opt ctx fuel e)
      (Expr.mk sp ty (ExprX.ret (Option.some e))) s = _
    simp only [expr_to_stm_opt_body, Expr.x, Expr.span, Expr.typ, M_bind_app, M_pure_app,
      getS, hr, h1, ReturnValue.to_value]
  · intro ctx fuel sp ty e enss s hr
    show expr_to_stm_opt_body ctx (fun e => expr_to_stm_opt ctx fuel e)
      (Expr.mk sp ty (ExprX.ret (Option.some e))) s = _
    simp only [expr_to_stm_opt_body, Expr.x, Expr.span, Expr.typ, M_bind_app, M_pure_app,
      getS, hr, ofRes, err_str]
  · intro ctx fuel sp ty e1 s hr
    show expr_to_stm_opt_body ctx (fun e => expr_to_stm_opt ctx fuel e)
      (Expr.mk sp ty (ExprX.ret e1)) s = _
    simp only [expr_to_stm_opt_body, Expr.x, Expr.span, Expr.typ, M_bind_app, M_pure_app,
      getS, hr, ofRes, err_str]
  · intro ctx fuel sp ty dest enss s hr
    show expr_to_stm_opt_body ctx (fun e => expr_to_stm_opt ctx fuel e)
      (Expr.mk sp ty (ExprX.ret Option.none)) s = _
    simp only [expr_to_stm_opt_body, Expr.x, Expr.span, Expr.typ, M_bind_app, M_pure_app,
      getS, hr, panicM]
  · intro ctx fuel sp ty enss s hr
    show expr_to_stm_opt_body ctx (fun e => expr_to_stm_opt ctx fuel e)
      (Expr.mk sp ty (ExprX.ret Option.none)) s = _
    simp only [expr_to_stm_opt_body, Expr.x, Expr.span, Expr.typ, M_bind_app, M_pure_app,
      getS, hr]
    simp [M_pure_app]

/-- C7 counterexample: a `return;` with no value, while the registered
signature expects a return value, aborts with an internal panic — it is
not reported as a recoverable diagnosed error as the claim states. -/
theorem c7_counterexample :
    expr_to_stm_opt ctx0 2 (Expr.mk 60 lowered_unit_typ (ExprX.ret Option.none)) wStateRetDest =
      Res.panic "internal error: return value expected" := rfl

/-- C7 witness: the full return flow and each error shape at concrete
inputs. -/
theorem c7_witness :
    (wStateRetDest.ret_post =
      Option.some (Option.some ("r", Option.some 0), [wEnsTrue])) ∧
    (expr_to_stm_opt ctx0 2 (Expr.mk 101 lowered_unit_typ (ExprX.ret (Option.some wVarA)))
        wStateRetDest =
      Res.ok (([init_var 101 ("r", Option.some 0) wExpA,
          Stm.mk 101 (StmX.assert
            (Option.some ((error_with_label "postcondition not satisfied" 101
              "at this exit").secondary_label 100 "failed this postcondition")) wEnsTrue),
          assume_false 101], ReturnValue.never), wStateRetDest)) ∧
    (expr_to_stm_opt ctx0 2 (Expr.mk 102 lowered_unit_typ (ExprX.ret (Option.some wVarA)))
        wStateRet =
      Res.err (error "return value not allowed here" 1)) ∧
    (expr_to_stm_opt ctx0 2 (Expr.mk 103 lowered_unit_typ (ExprX.ret Option.none)) wState =
      Res.err (error "return expression not allowed here" 103)) ∧
    (expr_to_stm_opt ctx0 2 (Expr.mk 104 lowered_unit_typ (ExprX.ret Option.none)) wStateRetDest =
      Res.panic "internal error: return value expected") ∧
    (expr_to_stm_opt ctx0 2 (Expr.mk 105 lowered_unit_typ (ExprX.ret Option.none)) wStateRet =
      Res.ok (([assume_false 105], ReturnValue.never), wStateRet)) :=
  ⟨rfl,
   c7_return_lowering.1 ctx0 1 101 lowered_unit_typ wVarA ("r", Option.some 0) [wEnsTrue]
     wStateRetDest wStateRetDest [] wExpA rfl rfl,
   c7_return_lowering.2.1 ctx0 1 102 lowered_unit_typ wVarA [] wStateRet rfl,
   c7_return_lowering.2.2.1 ctx0 1 103 lowered_unit_typ Option.none wState rfl,
   c7_return_lowering.2.2.2.1 ctx0 1 104 lowered_unit_typ ("r", Option.some 0) [wEnsTrue]
     wStateRetDest rfl,
   c7_return_lowering.2.2.2.2 ctx0 1 105 lowered_unit_typ [] wStateRet rfl⟩

/-- C8 (amended): translating a pre-state variable reference whose
variable's nearest binding lives in a non-outermost scope (the reference
crosses a shadow boundary) is reported as a recoverable diagnosed error
"the parameter is shadowed here" returned to the caller — not as a
process-aborting internal-invariant violation. -/
theorem c8_shadowed_prestate_diagnosed
    (ctx : Ctx) (fuel : Nat) (sp : Span) (ty : Typ) (x : Ident) (s : State) (sc i : Nat)
    (hfind : scope_and_index_of_key s.rename_map x = Option.some (sc, i))
    (hsc : sc ≠ 0) :
    expr_to_stm_opt ctx (fuel + 1) (Expr.mk sp ty (ExprX.varAt x VarAt.pre)) s =
      Res.err (error "the parameter is shadowed here" sp) := by
  have hb : (sc != 0) = true := by simpa using hsc
  show expr_to_stm_opt_body ctx (fun e => expr_to_stm_opt ctx fuel e)
    (Expr.mk sp ty (ExprX.varAt x VarAt.pre)) s = _
  simp only [expr_to_stm_opt_body, Expr.x, Expr.span, Expr.typ, M_bind_app, M_pure_app,
    getS, hfind, hb, ofRes, err_str, if_true]

/-- C8 counterexample: the shadowed pre-state reference comes back on the
recoverable `Err` channel (a structured diagnostic), not as a panic — the
claim calls it a process abort. -/
theorem c8_counterexample :
    expr_to_stm_opt ctx0 2 (Expr.mk 50 tU32 (ExprX.varAt "x" VarAt.pre)) wStateShadow =
      Res.err (error "the parameter is shadowed here" 50) := rfl

/-- C8 witness: the amended theorem applied at the concrete shadowing
state. -/
theorem c8_witness :
    (scope_and_index_of_key wStateShadow.rename_map "x" = Option.some (1, 0)) ∧
    (expr_to_stm_opt ctx0 1 (Expr.mk 50 tU32 (ExprX.varAt "x" VarAt.pre)) wStateShadow =
      Res.err (error "the parameter is shadowed here" 50)) :=
  ⟨rfl,
   c8_shadowed_prestate_diagnosed ctx0 0 50 tU32 "x" wStateShadow 1 0 rfl (by decide)⟩

theorem next_counter_eq_some (s : State) (x : Ident) (i : Nat)
    (h : counterOf s x = Option.some i) : next_counter s x = i + 1 := by
  have h' : lookupA s.rename_counters x = Option.some i := h
  simp [next_counter, h']

theorem counterOf_runOp_mono (op : StOp) (x : Ident) (s : State)
    (hop : ∀ t m, op ≠ StOp.declareNew x t m false) :
    counter_le (counterOf s x) (counterOf (runOp s op) x) := by
  cases op with
  | pushScope =>
    show counter_le (counterOf s x) (counterOf s.push_scope x)
    have : counterOf s.push_scope x = counterOf s x := rfl
    rw [this]; cases counterOf s x <;> simp [counter_le]
  | popScope =>
    have : counterOf s.pop_scope x = counterOf s x := rfl
    show counter_le (counterOf s x) (counterOf s.pop_scope x)
    rw [this]; cases counterOf s x <;> simp [counter_le]
  | declareExprVar y =>
    have : counterOf (s.declare_expression_var y) x = counterOf s x := rfl
    show counter_le (counterOf s x) (counterOf (s.declare_expression_var y) x)
    rw [this]; cases counterOf s x <;> simp [counter_le]
  | insertUnique u =>
    have : counterOf (s.insert_unique_var u) x = counterOf s x := rfl
    show counter_le (counterOf s x) (counterOf (s.insert_unique_var u) x)
    rw [this]; cases counterOf s x <;> simp [counter_le]
  | declareNew y t m r =>
    cases r with
    | false =>
      have hyx : y ≠ x := by
        intro h; exact hop t m (by rw [h])
      have : counterOf (runOp s (StOp.declareNew y t m false)) x = counterOf s x := by
        simp only [runOp, State.declare_new_var, State.new_statement_var, counterOf, lookupA]
        have : (y == x) = false := by simpa using hyx
        simp [this]
      rw [this]; cases counterOf s x <;> simp [counter_le]
    | true =>
      by_cases hyx : y = x
      · subst hyx
        have : counterOf (runOp s (StOp.declareNew y t m true)) y =
            Option.some (next_counter s y) := by
          simp only [runOp, State.declare_new_var, State.alloc_unique_var,
            State.insert_unique_var, counterOf, lookupA, next_counter]
          simp
        rw [this]
        cases hc : counterOf s y with
        | none => simp [counter_le]
        | some i => simp [counter_le, next_counter_eq_some s y i hc]
      · have : counterOf (runOp s (StOp.declareNew y t m true)) x = counterOf s x := by
          simp only [runOp, State.declare_new_var, State.alloc_unique_var,
            State.insert_unique_var, counterOf, lookupA]
          have : (y == x) = false := by simpa using hyx
          simp [this]
        rw [this]; cases counterOf s x <;> simp [counter_le]

theorem counterOf_runOps_mono (ops : List StOp) (x : Ident) :
    ∀ (s : State), (∀ op ∈ ops, ∀ t m, op ≠ StOp.declareNew x t m false) →
      counter_le (counterOf s x) (counterOf (runOps s ops) x) := by
  induction ops with
  | nil =>
    intro s _
    show counter_le (counterOf s x) (counterOf s x)
    cases counterOf s x <;> simp [counter_le]
  | cons op rest ih =>
    intro s h
    have h1 := counterOf_runOp_mono op x s (h op (List.mem_cons_self op rest))
    have h2 := ih (runOp s op) (fun o ho => h o (List.mem_cons_of_mem op ho))
    show counter_le (counterOf s x) (counterOf (runOps (runOp s op) rest) x)
    revert h1 h2
    cases counterOf s x <;> cases counterOf (runOp s op) x <;>
      cases counterOf (runOps (runOp s op) rest) x
    all_goals simp [counter_le]
    all_goals omega

/-- C9: generation counters for a name are monotonic across the whole
translation: `alloc_unique_var` hands out exactly the next counter and
records it; an existing counter strictly bounds the next one; entering or
exiting a scope never touches counters; along any trace of scope/declare
operations that contains no unrenamed re-declaration of the name, the
name's counter never decreases and is never dropped; hence two successive
renamed declarations of the same name, with any such trace between them,
receive strictly increasing counters. -/
theorem c9_generation_counters :
    (∀ (s : State) (x : Ident),
       (s.alloc_unique_var x).1 = (x, Option.some (next_counter s x)) ∧
       counterOf (s.alloc_unique_var x).2 x = Option.some (next_counter s x)) ∧
    (∀ (s : State) (x : Ident) (i : Nat),
       counterOf s x = Option.some i → i < next_counter s x) ∧
    (∀ (s : State) (x : Ident),
       counterOf s.push_scope x = counterOf s x ∧ counterOf s.pop_scope x = counterOf s x) ∧
    (∀ (ops : List StOp) (x : Ident) (s : State),
       (∀ op ∈ ops, ∀ t m, op ≠ StOp.declareNew x t m false) →
       counter_le (counterOf s x) (counterOf (runOps s ops) x)) ∧
    (∀ (s : State) (x : Ident) (t1 t2 : Typ) (m1 m2 : Bool) (ops : List StOp),
       (∀ op ∈ ops, ∀ t m, op ≠ StOp.declareNew x t m false) →
       (s.declare_new_var x t1 m1 true).1.2 = Option.some (next_counter s x) ∧
       ((runOps (s.declare_new_var x t1 m1 true).2 ops).declare_new_var x t2 m2 true).1.2 =
         Option.some
           (next_counter (runOps (s.declare_new_var x t1 m1 true).2 ops) x) ∧
       next_counter s x <
         next_counter (runOps (s.declare_new_var x t1 m1 true).2 ops) x) := by
  have halloc : ∀ (s : State) (x : Ident),
      (s.alloc_unique_var x).1 = (x, Option.some (next_counter s x)) ∧
      counterOf (s.alloc_unique_var x).2 x = Option.some (next_counter s x) := by
    intro s x
    constructor
    · simp [State.alloc_unique_var, next_counter]
    · simp [State.alloc_unique_var, next_counter, counterOf, lookupA]
  have hdecl : ∀ (s : State) (x : Ident) (t : Typ) (m : Bool),
      (s.declare_new_var x t m true).1.2 = Option.some (next_counter s x) ∧
      counterOf (s.declare_new_var x t m true).2 x = Option.some (next_counter s x) := by
    intro s x t m
    constructor
    · simp [State.declare_new_var, State.alloc_unique_var, State.insert_unique_var,
        next_counter]
    · simp [State.declare_new_var, State.alloc_unique_var, State.insert_unique_var,
        next_counter, counterOf, lookupA]
  refine ⟨halloc, ?_, ?_, ?_, ?_⟩
  · intro s x i h
    rw [next_counter_eq_some s x i h]; omega
  · intro s x; exact ⟨rfl, rfl⟩
  · intro ops x s h; exact counterOf_runOps_mono ops x s h
  · intro s x t1 t2 m1 m2 ops hops
    obtain ⟨h1, h1c⟩ := hdecl s x t1 m1
    have hmono := counterOf_runOps_mono ops x (s.declare_new_var x t1 m1 true).2 hops
    rw [h1c] at hmono
    obtain ⟨h2, _⟩ := hdecl (runOps (s.declare_new_var x t1 m1 true).2 ops) x t2 m2
    refine ⟨h1, h2, ?_⟩
    revert hmono
    cases hc : counterOf (runOps (s.declare_new_var x t1 m1 true).2 ops) x with
    | none => simp [counter_le]
    | some j =>
      intro hmono
      simp only [counter_le] at hmono
      rw [next_counter_eq_some _ x j hc]
      omega

/-- C9 witness: the monotonicity facts at a concrete state and trace. -/
theorem c9_witness :
    ((State.new.declare_new_var "x" tU32 false true).1.2 =
      Option.some (next_counter State.new "x")) ∧
    (((runOps (State.new.declare_new_var "x" tU32 false true).2 wOps).declare_new_var
        "x" tU32 false true).1.2 =
      Option.some (next_counter
        (runOps (State.new.declare_new_var "x" tU32 false true).2 wOps) "x")) ∧
    (next_counter State.new "x" <
      next_counter (runOps (State.new.declare_new_var "x" tU32 false true).2 wOps) "x") ∧
    (counterOf wCState "x" = Option.some 0) ∧
    (0 < next_counter wCState "x") ∧
    counter_le (counterOf wCState "x") (counterOf (runOps wCState wOps) "x") := by
  have hops : ∀ op ∈ wOps, ∀ t m, op ≠ StOp.declareNew "x" t m false := by
    intro op hop t m
    simp only [wOps, List.mem_cons, List.not_mem_nil, or_false] at hop
    rcases hop with rfl | rfl | rfl <;> exact fun h => StOp.noConfusion h
  obtain ⟨h1, h2, h3⟩ :=
    c9_generation_counters.2.2.2.2 State.new "x" tU32 tU32 false false wOps hops
  exact ⟨h1, h2, h3, rfl,
    c9_generation_counters.2.1 wCState "x" 0 rfl,
    c9_generation_counters.2.2.2.1 wOps "x" wCState hops⟩

/-- C10: a translation outcome used in statement position passes
`check_unit_or_never` exactly when it is an implicit unit, `Never`, or a
`Value` that is a reference to a compiler-generated temp variable; every
other `Value` is rejected with the diagnosed error "expressions with no
effect are not supported" (at the value's span), and in the block loop
such a rejection aborts the whole block translation with that error. -/
theorem c10_effect_free_statement_check :
    (∀ (rv : ReturnValue), check_unit_or_never rv = Res.ok () ↔
      ((∃ sp, rv = ReturnValue.implicitUnit sp) ∨ rv = ReturnValue.never ∨
       (∃ sp ty x g, rv = ReturnValue.some (Exp.mk sp ty (ExpX.var (x, g))) ∧
         is_temp_var x = true))) ∧
    (∀ (e : Exp) (er : VirErr), check_unit_or_never (ReturnValue.some e) = Res.err er →
      er = error "expressions with no effect are not supported" e.span) ∧
    (∀ (st : Stmt → M (List Stm × ReturnValue × Option (LocalDecl × Option Bnd)))
       (stmt : Stmt) (rest : List Stmt) (acc : BlockAcc) (s : State)
       (stms0 : List Stm) (e0 : ReturnValue) (s' : State) (er : VirErr),
       st stmt s = Res.ok ((stms0, e0, Option.none), s') →
       check_unit_or_never e0 = Res.err er →
       block_stmts_loop st (stmt :: rest) acc s = Res.err er) := by
  refine ⟨?_, ?_, ?_⟩
  · intro rv
    cases rv with
    | implicitUnit sp => simp [check_unit_or_never]
    | never => simp [check_unit_or_never]
    | some e =>
      obtain ⟨sp, ty, ex⟩ := e
      cases ex with
      | var u =>
        obtain ⟨x, g⟩ := u
        by_cases h : is_temp_var x = true
        · simp only [check_unit_or_never, Exp.x, h, if_true]
          simp only [ReturnValue.some.injEq, Exp.mk.injEq, ExpX.var.injEq, Prod.mk.injEq]
          constructor
          · intro _
            exact Or.inr (Or.inr ⟨sp, ty, x, g, ⟨rfl, rfl, rfl, rfl⟩, h⟩)
          · intro _; trivial
        · simp only [Bool.not_eq_true] at h
          simp [check_unit_or_never, Exp.x, Exp.span, err_str, h]
      | const c => simp [check_unit_or_never, Exp.x, err_str]
      | varLoc u => simp [check_unit_or_never, Exp.x, err_str]
      | varAt u a => simp [check_unit_or_never, Exp.x, err_str]
      | loc e => simp [check_unit_or_never, Exp.x, err_str]
      | old x => simp [check_unit_or_never, Exp.x, err_str]
      | call fn typs args => simp [check_unit_or_never, Exp.x, err_str]
      | callLambda t fn args => simp [check_unit_or_never, Exp.x, err_str]
      | ctor p v bs => simp [check_unit_or_never, Exp.x, err_str]
      | unary op e => simp [check_unit_or_never, Exp.x, err_str]
      | unaryOpr op e => simp [check_unit_or_never, Exp.x, err_str]
      | binary op e1 e2 => simp [check_unit_or_never, Exp.x, err_str]
      | ifE c t e => simp [check_unit_or_never, Exp.x, err_str]
      | bind b e => simp [check_unit_or_never, Exp.x, err_str]
  · intro e er h
    obtain ⟨sp, ty, ex⟩ := e
    simp only [Exp.span]
    cases ex
    case var u =>
      obtain ⟨x, g⟩ := u
      by_cases htemp : is_temp_var x = true
      · simp [check_unit_or_never, Exp.x, htemp] at h
      · simp only [Bool.not_eq_true] at htemp
        simp only [check_unit_or_never, Exp.x, Exp.span, err_str, htemp,
          Bool.false_eq_true, if_false, Res.err.injEq] at h
        exact h.symm
    all_goals
      simp only [check_unit_or_never, Exp.x, Exp.span, err_str, Res.err.injEq] at h
      exact h.symm
  · intro st stmt rest acc s stms0 e0 s' er h1 h2
    simp only [block_stmts_loop, M_bind_app, M_pure_app, h1, h2, ofRes]

/-- C10 witness: a non-temp variable in statement position is rejected
with the fixed diagnosed error, and the rejection aborts the enclosing
block translation; implicit units and `Never` are accepted, as is a temp
reference. -/
theorem c10_witness :
    (check_unit_or_never (ReturnValue.some wExpA) =
      Res.err (error "expressions with no effect are not supported" 1)) ∧
    (error "expressions with no effect are not supported" 1 =
      error "expressions with no effect are not supported" (Exp.span wExpA)) ∧
    (check_unit_or_never (ReturnValue.implicitUnit 7) = Res.ok ()) ∧
    (check_unit_or_never ReturnValue.never = Res.ok ()) ∧
    (check_unit_or_never (ReturnValue.some
        (Exp.mk 8 tU32 (ExpX.var (prefix_temp_var 1, Option.some 0)))) = Res.ok ()) ∧
    (stmt_to_stm_with ctx0 (fun e => expr_to_stm_opt ctx0 1 e)
        (Stmt.mk 9 (StmtX.expr wVarA)) wState =
      Res.ok (([], ReturnValue.some wExpA, Option.none), wState)) ∧
    (block_stmts_loop (stmt_to_stm_with ctx0 (fun e => expr_to_stm_opt ctx0 1 e))
        [Stmt.mk 9 (StmtX.expr wVarA), Stmt.mk 10 (StmtX.expr (wHeader 11))]
        ⟨[], [], [], true, false⟩ wState =
      Res.err (error "expressions with no effect are not supported" 1)) :=
  ⟨rfl,
   (c10_effect_free_statement_check.2.1 wExpA
     (error "expressions with no effect are not supported" 1) rfl) ▸ rfl,
   rfl, rfl, rfl, rfl,
   c10_effect_free_statement_check.2.2
     (stmt_to_stm_with ctx0 (fun e => expr_to_stm_opt ctx0 1 e))
     (Stmt.mk 9 (StmtX.expr wVarA)) [Stmt.mk 10 (StmtX.expr (wHeader 11))]
     ⟨[], [], [], true, false⟩ wState [] (ReturnValue.some wExpA) wState
     (error "expressions with no effect are not supported" 1) rfl rfl⟩

end VirSst
